import Mathlib

/-!
# pickupTracker: the session state machine of `src/backend/server.js`

A shallow embedding of the Express handlers of `src/backend/server.js`, and of the
drag-and-drop reordering of `src/frontend/src/App.jsx`.
Every handler reads the store, looks the area up (`if (!data[area])`), and then
works on the session `data[area]`.  The functions below embed the handler bodies
on that session: a handler that answers with an error status does not call
`writeData`, so the persisted session is the one before the call; this is the
`Except.error` result.  A handler that reaches `writeData` persists and returns
the mutated session; this is the `Except.ok` result.

Modelling conventions:
* request values are `JsVal`: what `express.json()` can put in `req.body`, with
  `undefined` for an absent key.  A number is an integer of magnitude below `2^53`,
  the range in which `ToString` prints every digit; fractions and larger numbers
  are not values of the type.  An object or array carries the string that the
  ECMAScript `ToString` operation gives for it, which is all these handlers observe
  of it;
* a team is `{ name, id }` with string fields, the shape `addTeam` creates; an element
  of a stored list is a team or `null` (an element the handlers cannot dereference);
* a stored score slot is the Number that `Math.max(0, parseInt(v) || 0)` yields: the
  double nearest to the integer read (round to nearest, ties to even), which is the
  integer itself below `2^53`, or `Infinity`;
* `Date.now()` is a parameter of `addTeam`;
* the store is the parsed `data.json`; `data[area]` also finds the members that every
  object inherits from `Object.prototype`, and such a member is taken as the engine
  provides it, without properties that requests may have set on it.
-/

namespace PickupTracker

/-! ## Request values -/

/-- A value found in a parsed JSON request body, or `undefined` for an absent key. -/
inductive JsVal where
  | undefined
  | null
  | bool (b : Bool)
  | num (n : Int) (safe : n.natAbs < 2 ^ 53)
  | str (s : String)
  | obj (shown : String)
deriving DecidableEq, Repr

/-- ECMAScript `ToBoolean`: what `!v`, `v && w` and `if (v)` test. -/
def JsVal.truthy : JsVal → Bool
  | .undefined => false
  | .null => false
  | .bool b => b
  | .num n _ => n != 0
  | .str s => s != ""
  | .obj _ => true

/-- ECMAScript `ToString`, as applied by `parseInt` to its argument. -/
def JsVal.toJsString : JsVal → String
  | .undefined => "undefined"
  | .null => "null"
  | .bool true => "true"
  | .bool false => "false"
  | .num (Int.ofNat n) _ => Nat.repr n
  | .num (Int.negSucc n) _ => "-" ++ Nat.repr (n + 1)
  | .str s => s
  | .obj shown => shown

/-- ECMAScript `WhiteSpace` and `LineTerminator` code points, the characters that
`String.prototype.trim` and `parseInt` strip. -/
def isJsWhitespace (c : Char) : Bool :=
  let n := c.toNat
  n == 0x09 || n == 0x0A || n == 0x0B || n == 0x0C || n == 0x0D || n == 0x20 ||
  n == 0xA0 || n == 0x1680 || (0x2000 ≤ n && n ≤ 0x200A) || n == 0x2028 ||
  n == 0x2029 || n == 0x202F || n == 0x205F || n == 0x3000 || n == 0xFEFF

/-- The characters of `s.trim()`. -/
def jsTrimChars (cs : List Char) : List Char :=
  ((cs.dropWhile isJsWhitespace).reverse.dropWhile isJsWhitespace).reverse

/-- `String.prototype.trim`. -/
def jsTrim (s : String) : String := String.mk (jsTrimChars s.data)

/-- Value of a character as a digit of the given radix (10 or 16), if it is one. -/
def digitValue (radix : Nat) (c : Char) : Option Nat :=
  let n := c.toNat
  if 48 ≤ n ∧ n ≤ 57 then some (n - 48)
  else if radix = 16 ∧ 97 ≤ n ∧ n ≤ 102 then some (n - 87)
  else if radix = 16 ∧ 65 ≤ n ∧ n ≤ 70 then some (n - 55)
  else none

/-- Reads the longest run of radix digits at the front of `cs`, accumulating its
value from `acc`; `seen` records whether a digit has been read.  `none` when the
run is empty (`parseInt` then yields `NaN`). -/
def parseDigits (radix : Nat) : List Char → Nat → Bool → Option Nat
  | [], acc, seen => if seen then some acc else none
  | c :: cs, acc, seen =>
    match digitValue radix c with
    | some d => parseDigits radix cs (acc * radix + d) true
    | none => if seen then some acc else none

/-- `parseInt(S)` on the characters left after the sign: a `0x` or `0X` start selects
radix 16, otherwise radix 10. -/
def parseUnsigned : List Char → Option Nat
  | '0' :: 'x' :: cs => parseDigits 16 cs 0 false
  | '0' :: 'X' :: cs => parseDigits 16 cs 0 false
  | cs => parseDigits 10 cs 0 false

/-- `parseInt(string)` with no radix argument on a string, up to the mathematical
integer `sign × mathInt` that the function then converts to a Number; `none` is
`NaN`. -/
def parseIntChars (cs : List Char) : Option Int :=
  match cs.dropWhile isJsWhitespace with
  | '-' :: rest => (parseUnsigned rest).map (fun v => - (v : Int))
  | '+' :: rest => (parseUnsigned rest).map (fun v => (v : Int))
  | rest => (parseUnsigned rest).map (fun v => (v : Int))

/-- `parseInt(v)` for a request value, up to the same integer: `ToString` first, then
the string parse. -/
def jsParseInt (v : JsVal) : Option Int := parseIntChars v.toJsString.data

/-- A non-negative Number that a score slot can hold: an integer-valued double, or
`Infinity` (which `JSON.stringify` writes as `null`). -/
inductive SlotValue where
  | int (n : Nat)
  | infinity
deriving DecidableEq, Repr

instance (n : Nat) : OfNat SlotValue n := ⟨.int n⟩

/-- How many times `v` must be halved to come below `2^53`: the number of bits that a
double cannot keep.  The first argument bounds the number of steps. -/
def excessBits : Nat → Nat → Nat
  | 0, _ => 0
  | fuel + 1, v => if v < 2 ^ 53 then 0 else excessBits fuel (v / 2) + 1

/-- The Number value of the natural number `v`: the nearest double, ties to even.  Below
`2^53` it is `v`; above, `v` is cut to 53 significant bits and rounded; from `2^1024` on
the result is `Infinity`. -/
def toDouble (v : Nat) : SlotValue :=
  if v < 2 ^ 53 then .int v
  else
    let e := excessBits v v
    let q := v / 2 ^ e
    let r := v % 2 ^ e
    let q' := if 2 ^ (e - 1) < r ∨ (r = 2 ^ (e - 1) ∧ q % 2 = 1) then q + 1 else q
    if q' * 2 ^ e < 2 ^ 1024 then .int (q' * 2 ^ e) else .infinity

/-- The expression `Math.max(0, parseInt(v) || 0)` of the score handler: 0 for `NaN` and
for an integer that is negative or zero, the Number value of a positive integer. -/
def clampScore (v : JsVal) : SlotValue :=
  match jsParseInt v with
  | some i => toDouble i.toNat
  | none => 0

/-! ## Data model -/

/-- A team object `{ name, id }`. -/
structure Team where
  name : String
  id : String
deriving DecidableEq, Repr

/-- The score object `{ team1, team2 }`. -/
structure Score where
  team1 : SlotValue
  team2 : SlotValue
deriving DecidableEq, Repr

/-- The session stored under one area: `{ mode, teams, inPlay, score }`.  `teams` is
the waiting queue.  An element of either list is `some` team object or `none`, the
element `null`, which the reorder route can store.  `score` is `none` when the stored
object has no `score` key, the case the handlers test with `if (data[area].score)`. -/
structure Session where
  mode : JsVal
  teams : List (Option Team)
  inPlay : List (Option Team)
  score : Option Score
deriving DecidableEq, Repr

/-- The error answers of the handlers, one per `res.status(..).json({ error })`;
`typeError` for the exception that `name.trim()` throws on a truthy value that is not a
string, `typeErrorNoSession` for the exception that reading `.some`, `.filter` or
`.length` of a missing `teams` or `inPlay` throws, and `typeErrorNullElement` for the
exception that reading `.id` or `.name` of a `null` list element throws (Express
answers 500 to the three).  The three 404 answers differ in their text. -/
inductive Error where
  | teamNameRequired
  | areaNotFoundCreateFirst
  | sessionNotFound
  | areaNotFound
  | duplicateName
  | invalidDataFormat
  | gameInProgress
  | insufficientTeams
  | noModeSet
  | invalidTeamIds
  | invalidGameResult
  | invalidGameResultClassic
  | typeError
  | typeErrorNoSession
  | typeErrorNullElement
deriving DecidableEq, Repr

instance {α : Type} [DecidableEq α] : DecidableEq (Except Error α)
  | .ok a, .ok b =>
    if h : a = b then isTrue (by rw [h]) else isFalse (fun h' => h (by cases h'; rfl))
  | .error a, .error b =>
    if h : a = b then isTrue (by rw [h]) else isFalse (fun h' => h (by cases h'; rfl))
  | .ok _, .error _ => isFalse (fun h => by cases h)
  | .error _, .ok _ => isFalse (fun h => by cases h)

/-- The `error` string sent with each error answer (for `typeError`, the message of the
exception). -/
def Error.message : Error → String
  | .teamNameRequired => "Team name is required"
  | .areaNotFoundCreateFirst => "Area not found. Please create a session first."
  | .sessionNotFound => "Session not found"
  | .areaNotFound => "Area not found"
  | .duplicateName => "Team name already exists"
  | .invalidDataFormat => "Invalid data format"
  | .gameInProgress => "Game already in progress"
  | .insufficientTeams => "Need at least 2 teams to start a game"
  | .noModeSet => "No game mode set"
  | .invalidTeamIds => "Invalid team IDs"
  | .invalidGameResult => "Invalid game result"
  | .invalidGameResultClassic => "Invalid game result for classic mode"
  | .typeError => "name.trim is not a function"
  | .typeErrorNoSession => "Cannot read properties of undefined"
  | .typeErrorNullElement => "Cannot read properties of null"

/-- The HTTP status sent with each error answer. -/
def Error.status : Error → Nat
  | .areaNotFoundCreateFirst => 404
  | .sessionNotFound => 404
  | .areaNotFound => 404
  | .typeError => 500
  | .typeErrorNoSession => 500
  | .typeErrorNullElement => 500
  | _ => 400

/-! ## Operations on a session -/

/-- The session object created for an unknown area by `POST /api/queue/:area`. -/
def newSession (mode : JsVal) : Session :=
  { mode := mode, teams := [], inPlay := [], score := some ⟨0, 0⟩ }

/-- The session object created for an unknown area by `GET /api/queue/:area`. -/
def freshSession : Session := newSession .null

/-- `POST /api/queue/:area` on an existing session. -/
def configure (s : Session) (mode : JsVal) : Session :=
  { s with
    mode := mode
    score := match s.score with
      | some sc => some sc
      | none => some ⟨0, 0⟩ }

/-- `teams.some((team) => team.name === n)`: the elements are visited in order up to the
first match, and reading `.name` of a `null` element throws. -/
def nameTaken : List (Option Team) → String → Except Error Bool
  | [], _ => .ok false
  | none :: _, _ => .error .typeErrorNullElement
  | some team :: rest, n => if team.name = n then .ok true else nameTaken rest n

/-- `POST /api/queue/:area/teams` on an existing session; `now` is `Date.now()`. -/
def addTeam (s : Session) (name : JsVal) (now : Nat) : Except Error Session :=
  if !name.truthy then .error .teamNameRequired
  else
    match name with
    | .str n =>
      if jsTrim n = "" then .error .teamNameRequired
      else
        match nameTaken s.teams (jsTrim n) with
        | .error e => .error e
        | .ok true => .error .duplicateName
        | .ok false =>
          .ok { s with teams := s.teams ++ [some { name := jsTrim n, id := Nat.repr now }] }
    | _ => .error .typeError

/-- `POST /api/queue/:area/reorder` on an existing session.  The body value `teams` is
`none` when `Array.isArray(teams)` is false and `some l` when it is an array. -/
def reorderQueue (s : Session) (teams : Option (List (Option Team))) :
    Except Error Session :=
  match teams with
  | none => .error .invalidDataFormat
  | some l => .ok { s with teams := l }

/-- `list.filter((team) => team.id !== teamId)`: every element is visited, and reading
`.id` of a `null` element throws. -/
def filterOthers : List (Option Team) → String → Except Error (List (Option Team))
  | [], _ => .ok []
  | none :: _, _ => .error .typeErrorNullElement
  | some team :: rest, teamId =>
    match filterOthers rest teamId with
    | .error e => .error e
    | .ok kept => if team.id ≠ teamId then .ok (some team :: kept) else .ok kept

/-- `DELETE /api/queue/:area/teams/:teamId` on an existing session: the queue is
filtered first, then the in-play list. -/
def removeTeam (s : Session) (teamId : String) : Except Error Session :=
  match filterOthers s.teams teamId with
  | .error e => .error e
  | .ok teams =>
    match filterOthers s.inPlay teamId with
    | .error e => .error e
    | .ok inPlay => .ok { s with teams := teams, inPlay := inPlay }

/-- `POST /api/queue/:area/start-game` on an existing session. -/
def startGame (s : Session) : Except Error Session :=
  if s.inPlay.length ≥ 2 then .error .gameInProgress
  else if s.teams.length < 2 then .error .insufficientTeams
  else
    .ok { s with
      teams := s.teams.drop 2
      inPlay := s.inPlay ++ s.teams.take 2
      score := match s.score with
        | some _ => some ⟨0, 0⟩
        | none => none }

/-- `inPlay.find((t) => t.id === v)`: the elements are visited in order up to the first
match, and reading `.id` of a `null` element throws; strict equality of a string id
with a request value holds only for the same string.  `.ok none` is `undefined`. -/
def findTeam : List (Option Team) → JsVal → Except Error (Option Team)
  | [], _ => .ok none
  | none :: _, _ => .error .typeErrorNullElement
  | some t :: rest, v => if JsVal.str t.id = v then .ok (some t) else findTeam rest v

/-- The loop `while (inPlay.length < 2 && teams.length > 0) inPlay.push(teams.shift())`;
the result is `(inPlay, teams)` at loop exit.  Each iteration shortens `teams`. -/
def refill (inPlay : List (Option Team)) :
    List (Option Team) → List (Option Team) × List (Option Team)
  | [] => (inPlay, [])
  | t :: rest => if inPlay.length < 2 then refill (inPlay ++ [t]) rest else (inPlay, t :: rest)

/-- `POST /api/queue/:area/game-result` on an existing session. -/
def recordResult (s : Session) (winner loser bothLose : JsVal) : Except Error Session :=
  if !s.mode.truthy then .error .noModeSet
  else if s.mode = .str "winner-stays-on" then
    if bothLose.truthy then
      let r := refill [] (s.teams ++ s.inPlay)
      .ok { s with teams := r.2, inPlay := r.1 }
    else if winner.truthy && loser.truthy then
      match findTeam s.inPlay winner with
      | .error e => .error e
      | .ok winnerTeam =>
        match findTeam s.inPlay loser with
        | .error e => .error e
        | .ok loserTeam =>
          match winnerTeam, loserTeam with
          | some winnerTeam, some loserTeam =>
            let r := refill [some winnerTeam] (s.teams ++ [some loserTeam])
            .ok { s with teams := r.2, inPlay := r.1 }
          | _, _ => .error .invalidTeamIds
    else .error .invalidGameResult
  else if s.mode = .str "classic" then
    if bothLose.truthy then
      .ok { s with
        teams := s.teams ++ s.inPlay
        inPlay := []
        score := match s.score with
          | some _ => some ⟨0, 0⟩
          | none => none }
    else .error .invalidGameResultClassic
  else .ok s

/-- The score object after `if (!data[area].score) data[area].score = { team1: 0, team2: 0 }`. -/
def backfilledScore (s : Session) : Score :=
  match s.score with
  | some sc => sc
  | none => ⟨0, 0⟩

/-- `POST /api/queue/:area/score` on an existing session. -/
def updateScore (s : Session) (team1 team2 : JsVal) : Session :=
  let sc0 : Score := backfilledScore s
  let sc1 : Score := if team1 ≠ .undefined then { sc0 with team1 := clampScore team1 } else sc0
  let sc2 : Score := if team2 ≠ .undefined then { sc1 with team2 := clampScore team2 } else sc1
  { s with score := some sc2 }

/-! ## Sequences of operations -/

/-- One request to an existing session. -/
inductive Op where
  | configure (mode : JsVal)
  | addTeam (name : JsVal) (now : Nat)
  | removeTeam (teamId : String)
  | reorderQueue (teams : Option (List (Option Team)))
  | startGame
  | recordResult (winner loser bothLose : JsVal)
  | updateScore (team1 team2 : JsVal)
deriving DecidableEq, Repr

/-- The persisted session after a handler ran: the returned one, or the prior one
when the handler answered with an error. -/
def persisted (s : Session) : Except Error Session → Session
  | .ok s' => s'
  | .error _ => s

/-- The persisted session after one request. -/
def step (s : Session) : Op → Session
  | .configure mode => configure s mode
  | .addTeam name now => persisted s (addTeam s name now)
  | .removeTeam teamId => persisted s (removeTeam s teamId)
  | .reorderQueue teams => persisted s (reorderQueue s teams)
  | .startGame => persisted s (startGame s)
  | .recordResult w l b => persisted s (recordResult s w l b)
  | .updateScore t1 t2 => updateScore s t1 t2

/-- The persisted session after a sequence of requests. -/
def run (s : Session) (ops : List Op) : Session := ops.foldl step s

/-- No team id occurs both in the queue and in play. -/
def IdsDisjoint (s : Session) : Prop :=
  ∀ t ∈ s.teams.reduceOption, ∀ u ∈ s.inPlay.reduceOption, t.id ≠ u.id

instance (s : Session) : Decidable (IdsDisjoint s) := by
  unfold IdsDisjoint; infer_instance

/-- Ids of all teams of the session: the queue first, then the in-play list. -/
def Session.ids (s : Session) : List String :=
  (s.teams ++ s.inPlay).reduceOption.map Team.id

/-- The requests of a caller that keeps to the documented preconditions: `addTeam` runs
at a clock value whose decimal string is not the id of a team of the session,
`reorderQueue` supplies a permutation of the current queue, and a result with a falsy
`bothLose` names two different values as winner and loser. -/
def Op.Admissible (s : Session) : Op → Prop
  | .addTeam _ now => Nat.repr now ∉ s.ids
  | .reorderQueue (some l) => l.Perm s.teams
  | .recordResult w l b => b.truthy = true ∨ w ≠ l
  | _ => True

instance (s : Session) (op : Op) : Decidable (Op.Admissible s op) := by
  cases op with
  | reorderQueue teams => cases teams <;> (unfold Op.Admissible; infer_instance)
  | _ => unfold Op.Admissible; infer_instance

/-- Every request of the sequence is admissible in the session it is applied to. -/
def AdmissibleRun (s : Session) : List Op → Prop
  | [] => True
  | op :: ops => Op.Admissible s op ∧ AdmissibleRun (step s op) ops

instance admissibleRunDecidable :
    (s : Session) → (ops : List Op) → Decidable (AdmissibleRun s ops)
  | _, [] => isTrue trivial
  | s, op :: ops =>
    have := admissibleRunDecidable (step s op) ops
    inferInstanceAs (Decidable (Op.Admissible s op ∧ AdmissibleRun (step s op) ops))

/-! ## The store -/

/-- The object `data` that `readData()` returns: the own properties of the parsed
`data.json`, one session per area, in key order. -/
abbrev Store := List (String × Session)

/-- Names of the members that every object inherits from `Object.prototype`. -/
def objectPrototypeKeys : List String :=
  ["constructor", "__defineGetter__", "__defineSetter__", "hasOwnProperty",
   "__lookupGetter__", "__lookupSetter__", "isPrototypeOf", "propertyIsEnumerable",
   "toString", "valueOf", "__proto__", "toLocaleString"]

/-- What the expression `data[area]` evaluates to: the session stored under the area;
failing that, an inherited member of `Object.prototype` (a function or object, truthy,
with none of the properties `mode`, `teams`, `inPlay`, `score`); failing that,
`undefined`. -/
inductive Lookup where
  | session (s : Session)
  | inherited
  | undefined
deriving DecidableEq, Repr

/-- The session stored under `area`, if `data` has that own property. -/
def Store.own (data : Store) (area : String) : Option Session :=
  match data with
  | [] => none
  | (k, s) :: rest => if k = area then some s else Store.own rest area

/-- The expression `data[area]`. -/
def Store.get (data : Store) (area : String) : Lookup :=
  match data.own area with
  | some s => .session s
  | none => if area ∈ objectPrototypeKeys then .inherited else .undefined

/-- The store after `data[area]` was assigned or mutated to `s` and written back: an
existing key keeps its place, a new key comes last. -/
def Store.set (data : Store) (area : String) (s : Session) : Store :=
  match data with
  | [] => [(area, s)]
  | (k, v) :: rest => if k = area then (k, s) :: rest else (k, v) :: Store.set rest area s

/-- The body of an answer. -/
inductive Response where
  | session (s : Session)
  | reordered (teams : List (Option Team))
  | error (e : Error)
  | nonSession
deriving DecidableEq, Repr

/-- End of a handler that worked on the session of `area`: on success the session is
written back and sent, on an error answer nothing is written. -/
def finish (data : Store) (area : String) : Except Error Session → Response × Store
  | .ok s => (.session s, data.set area s)
  | .error e => (.error e, data)

/-- `GET /api/queue/:area`: answer and store afterwards. -/
def getQueue (data : Store) (area : String) : Response × Store :=
  match data.get area with
  | .undefined => (.session freshSession, data.set area freshSession)
  | .session s => (.session s, data)
  | .inherited => (.nonSession, data)

/-- `POST /api/queue/:area`: answer and store afterwards. -/
def postQueue (data : Store) (area : String) (mode : JsVal) : Response × Store :=
  match data.get area with
  | .undefined => (.session (newSession mode), data.set area (newSession mode))
  | .session s => (.session (configure s mode), data.set area (configure s mode))
  | .inherited => (.nonSession, data)

/-- `POST /api/queue/:area/teams`: answer and store afterwards.  The name is checked
before the store is read. -/
def postTeams (data : Store) (area : String) (name : JsVal) (now : Nat) : Response × Store :=
  if !name.truthy then (.error .teamNameRequired, data)
  else
    match name with
    | .str n =>
      if jsTrim n = "" then (.error .teamNameRequired, data)
      else
        match data.get area with
        | .undefined => (.error .areaNotFoundCreateFirst, data)
        | .session s => finish data area (addTeam s name now)
        | .inherited => (.error .typeErrorNoSession, data)
    | _ => (.error .typeError, data)

/-- `POST /api/queue/:area/reorder`: answer and store afterwards. -/
def postReorder (data : Store) (area : String) (teams : Option (List (Option Team))) :
    Response × Store :=
  match data.get area with
  | .undefined => (.error .sessionNotFound, data)
  | .session s =>
    match reorderQueue s teams with
    | .ok s' => (.reordered s'.teams, data.set area s')
    | .error e => (.error e, data)
  | .inherited =>
    match teams with
    | none => (.error .invalidDataFormat, data)
    | some l => (.reordered l, data)

/-- `DELETE /api/queue/:area/teams/:teamId`: answer and store afterwards. -/
def deleteTeam (data : Store) (area : String) (teamId : String) : Response × Store :=
  match data.get area with
  | .undefined => (.error .areaNotFound, data)
  | .session s => finish data area (removeTeam s teamId)
  | .inherited => (.error .typeErrorNoSession, data)

/-- `POST /api/queue/:area/start-game`: answer and store afterwards. -/
def postStartGame (data : Store) (area : String) : Response × Store :=
  match data.get area with
  | .undefined => (.error .areaNotFound, data)
  | .session s => finish data area (startGame s)
  | .inherited => (.error .typeErrorNoSession, data)

/-- `POST /api/queue/:area/game-result`: answer and store afterwards. -/
def postGameResult (data : Store) (area : String) (winner loser bothLose : JsVal) :
    Response × Store :=
  match data.get area with
  | .undefined => (.error .areaNotFound, data)
  | .session s => finish data area (recordResult s winner loser bothLose)
  | .inherited => (.error .noModeSet, data)

/-- `POST /api/queue/:area/score`: answer and store afterwards. -/
def postScore (data : Store) (area : String) (team1 team2 : JsVal) : Response × Store :=
  match data.get area with
  | .undefined => (.error .areaNotFound, data)
  | .session s => finish data area (.ok (updateScore s team1 team2))
  | .inherited => (.nonSession, data)

/-- The router: the answer and the store after one request to `area`, by kind of
request. -/
def handle (data : Store) (area : String) : Op → Response × Store
  | .configure mode => postQueue data area mode
  | .addTeam name now => postTeams data area name now
  | .removeTeam teamId => deleteTeam data area teamId
  | .reorderQueue teams => postReorder data area teams
  | .startGame => postStartGame data area
  | .recordResult w l b => postGameResult data area w l b
  | .updateScore t1 t2 => postScore data area t1 t2

/-! ## The client: drag and drop of the queue (`src/frontend/src/App.jsx`) -/

/-- `Array.prototype.splice(start, deleteCount, ...items)` with non-negative integer
arguments: the array afterwards and the array of removed elements.  A `start` beyond
the end is the end, and the deletion stops at the end. -/
def splice {α : Type} (l : List α) (start deleteCount : Nat) (items : List α) :
    List α × List α :=
  (l.take start ++ items ++ l.drop (start + deleteCount), (l.drop start).take deleteCount)

/-- `handleOnDragEnd(result)` on the local queue `teams`, with `result.source.index` and
the index of `result.destination` (`none` when the item was dropped outside the list).
The value is the list `newTeams` sent to the reorder route, or `none` when the function
returns without sending.  An element `none` of the list is `undefined`, which is what
the destructuring `[reorderedItem]` yields when `splice` removed nothing. -/
def handleOnDragEnd (teams : List Team) (sourceIndex : Nat) (destination : Option Nat) :
    Option (List (Option Team)) :=
  match destination with
  | none => none
  | some destinationIndex =>
    if sourceIndex = destinationIndex then none
    else
      let copy : List (Option Team) := teams.map some
      let cut := splice copy sourceIndex 1 []
      let reorderedItem : Option Team := cut.2.head?.join
      some (splice cut.1 destinationIndex 0 [reorderedItem]).1

/-! ## Concrete data used in the evaluations -/

/-- A team named `n` with id `i`. -/
def tm (n i : String) : Team := { name := n, id := i }

/-- Four teams join, a game starts, the in-play team with id `1` is removed, and a game
is started again. -/
def opsRestart : List Op :=
  [.addTeam (.str "A") 1, .addTeam (.str "B") 2, .addTeam (.str "C") 3,
   .addTeam (.str "D") 4, .startGame, .removeTeam "1", .startGame]

/-- A session in winner-stays-on mode whose in-play teams are `A` with the empty id and
`B` with id `1`, reached from a fresh session through `reorderQueue` and `startGame`. -/
def opsEmptyId : List Op :=
  [.configure (.str "winner-stays-on"),
   .reorderQueue (some [tm "A" "", tm "B" "1"]),
   .startGame]

/-- Teams `Alpha` and `Beta` join and a game starts, so both are in play and the queue
is empty. -/
def opsAlphaInPlay : List Op :=
  [.addTeam (.str "Alpha") 1, .addTeam (.str "Beta") 2, .startGame]

/-- Three teams join, a game starts with `A` and `B`, and the queue is then replaced by
a list that names the in-play team `A` again. -/
def opsReorderInPlay : List Op :=
  [.addTeam (.str "A") 1, .addTeam (.str "B") 2, .addTeam (.str "C") 3, .startGame,
   .reorderQueue (some [tm "A" "1", tm "C" "3"])]

/-- A winner-stays-on session with four teams: a game, a win of team `1` over team `2`,
a reordering of the queue, a removal, and a both-lose result. -/
def opsRotation : List Op :=
  [.configure (.str "winner-stays-on"),
   .addTeam (.str "A") 1, .addTeam (.str "B") 2, .addTeam (.str "C") 3,
   .addTeam (.str "D") 4, .startGame,
   .recordResult (.str "1") (.str "2") (.bool false),
   .reorderQueue (some [tm "B" "2", tm "D" "4"]),
   .removeTeam "4",
   .recordResult .undefined .undefined (.bool true),
   .updateScore (.num 3 (by decide)) .undefined]

/-- A team joins and the queue is then replaced by a list that holds `null` before that
team. -/
def opsNullQueued : List Op :=
  [.addTeam (.str "A") 1, .reorderQueue (some [none, some (tm "A" "1")])]

/-- In winner-stays-on mode the queue is replaced by `null` and a team, and a game is
started, so that `null` and the team are in play. -/
def opsNullInPlay : List Op :=
  [.configure (.str "winner-stays-on"),
   .reorderQueue (some [none, some (tm "A" "1")]),
   .startGame]

/-- The test of `list.filter((team) => team.id !== teamId)` on a team object. -/
def isOther (teamId : String) : Option Team → Bool
  | some team => team.id ≠ teamId
  | none => true

/-- The string of the digit `1` followed by `k` zeros. -/
def oneAndZeros (k : Nat) : String := String.mk ('1' :: List.replicate k '0')

/-- Two teams join at the same clock value. -/
def opsSameMillisecond : List Op :=
  [.addTeam (.str "A") 1700000000000, .addTeam (.str "B") 1700000000000]

/-- A classic session with `A`, `B` queued and `C` in play. -/
def courtSession : Session :=
  { mode := .str "classic", teams := [tm "A" "1", tm "B" "2"],
    inPlay := [tm "C" "3"], score := some ⟨1, 2⟩ }

/-- A store with the one area `court`. -/
def courtStore : Store := [("court", courtSession)]

/-- A winner-stays-on session with `C` queued and `A`, `B` in play. -/
def rotationSession : Session :=
  { mode := .str "winner-stays-on", teams := [tm "C" "3"],
    inPlay := [tm "A" "1", tm "B" "2"], score := some ⟨2, 1⟩ }

/-! ## Start of a game -/

/-- C1, evaluated: from a fresh session, four `addTeam`, `startGame`, `removeTeam` of the
in-play team `1` and a second `startGame` persist a session with three teams in play:
the second `startGame` passes the guard `inPlay.length >= 2` with one team in play and
appends two more. -/
theorem C1_three_in_play_after_restart :
    run freshSession opsRestart =
      { mode := .null, teams := [],
        inPlay := [tm "B" "2", tm "C" "3", tm "D" "4"],
        score := some ⟨0, 0⟩ } ∧
    (run freshSession opsRestart).inPlay.length = 3 := by
  decide

/-- C3 as stated fails: in the session reached by `opsRestart` the in-play list does
not hold 2 teams (it holds 3) and the queue has fewer than 2 teams, yet `startGame`
answers `Game already in progress`, not `Need at least 2 teams to start a game`. -/
theorem C3_counterexample :
    (run freshSession opsRestart).inPlay.length ≠ 2 ∧
    (run freshSession opsRestart).teams.length < 2 ∧
    startGame (run freshSession opsRestart) = .error .gameInProgress ∧
    startGame (run freshSession opsRestart) ≠ .error .insufficientTeams := by
  decide

/-- C3 amended: `startGame` answers `Game already in progress` whenever 2 or more teams
are in play, whatever the queue; otherwise it answers `Need at least 2 teams to start a
game` whenever the queue has fewer than 2 teams; and it succeeds exactly when fewer than
2 teams are in play and the queue has at least 2. -/
theorem C3_startGame_guards (s : Session) :
    (2 ≤ s.inPlay.length → startGame s = .error .gameInProgress) ∧
    (s.inPlay.length < 2 → s.teams.length < 2 → startGame s = .error .insufficientTeams) ∧
    ((∃ s', startGame s = .ok s') ↔ (s.inPlay.length < 2 ∧ 2 ≤ s.teams.length)) ∧
    Error.message .gameInProgress = "Game already in progress" ∧
    Error.message .insufficientTeams = "Need at least 2 teams to start a game" := by
  refine ⟨?_, ?_, ?_, rfl, rfl⟩
  · intro h
    simp [startGame, h]
  · intro h1 h2
    have h1' : ¬ 2 ≤ s.inPlay.length := by omega
    simp [startGame, h1', h2]
  · unfold startGame
    by_cases h1 : s.inPlay.length ≥ 2
    · have h3 : ¬ s.inPlay.length < 2 := by omega
      simp [h1, h3]
    · by_cases h2 : s.teams.length < 2
      · have h3 : ¬ 2 ≤ s.teams.length := by omega
        simp [h1, h2, h3]
      · have h3 : s.inPlay.length < 2 := by omega
        have h4 : 2 ≤ s.teams.length := by omega
        simp [h1, h2, h3, h4]

/-- C4: when `startGame` succeeds, the prior queue is `a :: b :: rest`, the new in-play
list is the prior one followed by `a, b` in that order, and the new queue is `rest`,
the prior queue without its first two elements. -/
theorem C4_startGame_fifo (s s' : Session) (h : startGame s = .ok s') :
    ∃ a b, s.teams = a :: b :: s'.teams ∧
      s'.inPlay = s.inPlay ++ [a, b] ∧
      s'.teams = s.teams.drop 2 := by
  unfold startGame at h
  split at h
  · cases h
  · split at h
    · cases h
    · rename_i h2
      injection h with h
      subst h
      match hq : s.teams with
      | [] => simp [hq] at h2
      | [_] => simp [hq] at h2
      | a :: b :: rest => exact ⟨a, b, by simp⟩

/-- C4 at `queue = [A, B, C]`, `inPlay = []`: the result has `inPlay = [A, B]` and
`queue = [C]`. -/
theorem C4_startGame_fifo_witness :
    startGame { mode := .null, teams := [tm "A" "1", tm "B" "2", tm "C" "3"],
                inPlay := [], score := some ⟨3, 5⟩ } =
      .ok { mode := .null, teams := [tm "C" "3"],
            inPlay := [tm "A" "1", tm "B" "2"], score := some ⟨0, 0⟩ } ∧
    ∃ a b : Option Team,
      [some (tm "A" "1"), some (tm "B" "2"), some (tm "C" "3")] = a :: b :: [some (tm "C" "3")] ∧
      [some (tm "A" "1"), some (tm "B" "2")] = [] ++ [a, b] ∧
      [some (tm "C" "3")] =
        [some (tm "A" "1"), some (tm "B" "2"), some (tm "C" "3")].drop 2 :=
  ⟨by decide,
   C4_startGame_fifo
     { mode := .null, teams := [tm "A" "1", tm "B" "2", tm "C" "3"],
       inPlay := [], score := some ⟨3, 5⟩ }
     { mode := .null, teams := [tm "C" "3"],
       inPlay := [tm "A" "1", tm "B" "2"], score := some ⟨0, 0⟩ }
     (by decide)⟩

/-! ## Removal of a team -/

/-- On a list of team objects the filter keeps the teams of another id, in order. -/
theorem filterOthers_ok (teamId : String) : ∀ l : List (Option Team), none ∉ l →
    filterOthers l teamId = .ok (l.filter (isOther teamId))
  | [], _ => rfl
  | none :: _, h => absurd (List.mem_cons_self _ _) h
  | some team :: rest, h => by
    have ih := filterOthers_ok teamId rest (fun hm => h (List.mem_cons_of_mem _ hm))
    by_cases hid : team.id = teamId <;> simp [filterOthers, ih, isOther, hid]

/-- On a list that holds `null` the filter throws. -/
theorem filterOthers_error (teamId : String) : ∀ l : List (Option Team), none ∈ l →
    filterOthers l teamId = .error .typeErrorNullElement
  | [], h => by simp at h
  | none :: _, _ => rfl
  | some team :: rest, h => by
    have hm : none ∈ rest := by simpa using h
    simp [filterOthers, filterOthers_error teamId rest hm]

/-- C10 as stated fails: after a team joined and a reorder stored the list `[null, A]`,
`removeTeam` does not succeed: reading `.id` of the `null` element throws, Express
answers 500 and the session is as before. -/
theorem C10_counterexample :
    run freshSession opsNullQueued =
      { mode := .null, teams := [none, some (tm "A" "1")], inPlay := [],
        score := some ⟨0, 0⟩ } ∧
    removeTeam (run freshSession opsNullQueued) "1" = .error .typeErrorNullElement ∧
    step (run freshSession opsNullQueued) (.removeTeam "1") = run freshSession opsNullQueued ∧
    Error.status .typeErrorNullElement = 500 := by
  decide

/-- C10 amended: on a session whose queue and in-play list hold only team objects,
`removeTeam` succeeds; the queue and the in-play list of the result are the prior lists
with exactly the teams of the given id deleted, the remaining teams in their prior
order; the in-play list gains no team; mode and score are unchanged; and when the id
occurs in neither list (every element passes the test `isOther`) the session is
unchanged.  On a session whose queue or in-play list holds `null`, `removeTeam` throws
a `TypeError` (status 500) and the persisted session is the prior one. -/
theorem C10_removeTeam (s : Session) (teamId : String) :
    (none ∉ s.teams → none ∉ s.inPlay →
      ∃ s', removeTeam s teamId = .ok s' ∧
        s'.teams = s.teams.filter (isOther teamId) ∧
        s'.inPlay = s.inPlay.filter (isOther teamId) ∧
        (∀ t : Team, some t ∈ s'.teams ↔ some t ∈ s.teams ∧ t.id ≠ teamId) ∧
        (∀ t : Team, some t ∈ s'.inPlay ↔ some t ∈ s.inPlay ∧ t.id ≠ teamId) ∧
        s'.teams.Sublist s.teams ∧
        s'.inPlay.Sublist s.inPlay ∧
        s'.inPlay.length ≤ s.inPlay.length ∧
        s'.mode = s.mode ∧
        s'.score = s.score ∧
        ((∀ x ∈ s.teams ++ s.inPlay, isOther teamId x = true) → s' = s)) ∧
    ((none ∈ s.teams ∨ none ∈ s.inPlay) →
      removeTeam s teamId = .error .typeErrorNullElement ∧
      step s (.removeTeam teamId) = s) ∧
    Error.status .typeErrorNullElement = 500 := by
  refine ⟨?_, ?_, rfl⟩
  · intro hq hp
    refine ⟨{ s with
        teams := s.teams.filter (isOther teamId)
        inPlay := s.inPlay.filter (isOther teamId) }, ?_, rfl, rfl, ?_, ?_, ?_, ?_, ?_,
      rfl, rfl, ?_⟩
    · simp [removeTeam, filterOthers_ok teamId _ hq, filterOthers_ok teamId _ hp]
    · intro t
      simp [List.mem_filter, isOther]
    · intro t
      simp [List.mem_filter, isOther]
    · exact List.filter_sublist _
    · exact List.filter_sublist _
    · exact List.length_filter_le _ _
    · intro h
      have h1 : s.teams.filter (isOther teamId) = s.teams := by
        rw [List.filter_eq_self]
        intro x hx
        exact h x (List.mem_append_left _ hx)
      have h2 : s.inPlay.filter (isOther teamId) = s.inPlay := by
        rw [List.filter_eq_self]
        intro x hx
        exact h x (List.mem_append_right _ hx)
      simp only [h1, h2]
  · intro h
    have key : removeTeam s teamId = .error .typeErrorNullElement := by
      by_cases hq : none ∈ s.teams
      · simp [removeTeam, filterOthers_error teamId _ hq]
      · have hp : none ∈ s.inPlay := h.resolve_left hq
        simp [removeTeam, filterOthers_ok teamId _ hq, filterOthers_error teamId _ hp]
    exact ⟨key, by simp only [step, key, persisted]⟩

/-- C10 at a session with `B` and `C` queued and `A`, `D` in play: removing the in-play
id `1` leaves `inPlay = [D]` and the queue untouched, and removing the unknown id `9`
changes nothing. -/
theorem C10_removeTeam_witness :
    removeTeam
      { mode := .str "classic", teams := [some (tm "B" "2"), some (tm "C" "3")],
        inPlay := [some (tm "A" "1"), some (tm "D" "4")], score := some ⟨1, 2⟩ } "1" =
      .ok { mode := .str "classic", teams := [some (tm "B" "2"), some (tm "C" "3")],
            inPlay := [some (tm "D" "4")], score := some ⟨1, 2⟩ } ∧
    ∃ s', removeTeam
        { mode := .str "classic", teams := [some (tm "B" "2"), some (tm "C" "3")],
          inPlay := [some (tm "A" "1"), some (tm "D" "4")], score := some ⟨1, 2⟩ } "9" =
        .ok s' ∧
      s' = { mode := .str "classic", teams := [some (tm "B" "2"), some (tm "C" "3")],
             inPlay := [some (tm "A" "1"), some (tm "D" "4")], score := some ⟨1, 2⟩ } :=
  ⟨by decide,
   match (C10_removeTeam
     { mode := .str "classic", teams := [some (tm "B" "2"), some (tm "C" "3")],
       inPlay := [some (tm "A" "1"), some (tm "D" "4")], score := some ⟨1, 2⟩ } "9").1
     (by decide) (by decide) with
   | ⟨s', h, hrest⟩ => ⟨s', h, hrest.2.2.2.2.2.2.2.2.2 (by decide)⟩⟩

/-! ## Recording a result -/

/-- With one team in play and a non-empty queue, the refill loop runs once. -/
theorem refill_one (w h : Option Team) (t : List (Option Team)) :
    refill [w] (h :: t) = ([w, h], t) := by
  cases t <;> simp [refill]

/-- C5 as stated fails: the session reached by `opsEmptyId` is in winner-stays-on mode
with exactly two in-play teams of distinct ids (the empty string and `1`); recording
winner `""` and loser `"1"` does not rotate the teams but answers `Invalid game
result`, because the guard `winner && loser` treats the empty id as absent. -/
theorem C5_counterexample :
    run freshSession opsEmptyId =
      { mode := .str "winner-stays-on", teams := [],
        inPlay := [tm "A" "", tm "B" "1"], score := some ⟨0, 0⟩ } ∧
    recordResult (run freshSession opsEmptyId) (.str "") (.str "1") (.bool false) =
      .error .invalidGameResult := by
  decide

/-- C5 amended: in winner-stays-on mode with exactly two in-play teams `a`, `b` of
distinct non-empty ids, recording `winner` and `loser` (the two teams, in either slot
order) with a falsy `bothLose` succeeds; with `h :: t` the prior queue followed by the
loser, the result has `inPlay = [winner, h]` and queue `t`, and mode and score as
before. -/
theorem C5_winner_stays_on (s : Session) (a b winner loser : Team) (bothLose : JsVal)
    (hmode : s.mode = .str "winner-stays-on") (hin : s.inPlay = [some a, some b])
    (hab : a.id ≠ b.id) (ha : a.id ≠ "") (hb : b.id ≠ "")
    (hwl : (winner = a ∧ loser = b) ∨ (winner = b ∧ loser = a))
    (hbl : bothLose.truthy = false) :
    ∃ h t, s.teams ++ [some loser] = h :: t ∧
      recordResult s (.str winner.id) (.str loser.id) bothLose =
        .ok { s with inPlay := [some winner, h], teams := t } := by
  have hne : s.teams ++ [some loser] ≠ [] := by simp
  obtain ⟨h, t, hht⟩ := List.exists_cons_of_ne_nil hne
  refine ⟨h, t, hht, ?_⟩
  have hba : b.id ≠ a.id := fun e => hab e.symm
  have hfa : findTeam s.inPlay (.str a.id) = .ok (some a) := by
    simp [findTeam, hin]
  have hfb : findTeam s.inPlay (.str b.id) = .ok (some b) := by
    simp [findTeam, hin, hab]
  have hta : (JsVal.str a.id).truthy = true := by simp [JsVal.truthy, ha]
  have htb : (JsVal.str b.id).truthy = true := by simp [JsVal.truthy, hb]
  have htm : (JsVal.str "winner-stays-on").truthy = true := by decide
  rcases hwl with ⟨rfl, rfl⟩ | ⟨rfl, rfl⟩
  · simp [recordResult, hmode, htm, hbl, hta, htb, hfa, hfb, hht, refill_one]
  · simp [recordResult, hmode, htm, hbl, hta, htb, hfa, hfb, hht, refill_one]

/-- C5 at `inPlay = [A, B]`, `queue = [C]`, winner `A`, loser `B`: the result has
`inPlay = [A, C]` and `queue = [B]`. -/
theorem C5_winner_stays_on_witness :
    ∃ h t, [some (tm "C" "3")] ++ [some (tm "B" "2")] = h :: t ∧
      recordResult
        { mode := .str "winner-stays-on", teams := [tm "C" "3"],
          inPlay := [tm "A" "1", tm "B" "2"], score := some ⟨0, 0⟩ }
        (.str "1") (.str "2") (.bool false) =
        .ok { mode := .str "winner-stays-on", teams := t,
              inPlay := [some (tm "A" "1"), h], score := some ⟨0, 0⟩ } :=
  C5_winner_stays_on
    { mode := .str "winner-stays-on", teams := [tm "C" "3"],
      inPlay := [tm "A" "1", tm "B" "2"], score := some ⟨0, 0⟩ }
    (tm "A" "1") (tm "B" "2") (tm "A" "1") (tm "B" "2") (.bool false)
    rfl rfl (by decide) (by decide) (by decide) (Or.inl ⟨rfl, rfl⟩) rfl

/-- C6 as stated fails on a session stored without a `score` object: the handler resets
the score only under `if (data[area].score)`, so the result still has no score, not
the score `(0, 0)`. -/
theorem C6_counterexample :
    recordResult
      { mode := .str "classic", teams := [tm "Q" "1"],
        inPlay := [tm "X" "2", tm "Y" "3"], score := none }
      .undefined .undefined (.bool true) =
      .ok { mode := .str "classic", teams := [tm "Q" "1", tm "X" "2", tm "Y" "3"],
            inPlay := [], score := none } ∧
    (none : Option Score) ≠ some ⟨0, 0⟩ := by
  decide

/-- C6 amended: in classic mode a result with a truthy `bothLose` succeeds, whatever
`winner` and `loser` are; afterwards `inPlay` is empty, the queue is the prior queue
followed by the prior in-play teams in their order (no queued team is promoted), the
mode is unchanged, a session that had a score has the score `(0, 0)`, and a session
stored without a score object still has none. -/
theorem C6_classic_both_lose (s : Session) (winner loser bothLose : JsVal)
    (hmode : s.mode = .str "classic") (hbl : bothLose.truthy = true) :
    ∃ s', recordResult s winner loser bothLose = .ok s' ∧
      s'.inPlay = [] ∧
      s'.teams = s.teams ++ s.inPlay ∧
      s'.mode = s.mode ∧
      (∀ sc, s.score = some sc → s'.score = some ⟨0, 0⟩) ∧
      (s.score = none → s'.score = none) := by
  have htm : (JsVal.str "classic").truthy = true := by decide
  have hne : JsVal.str "classic" ≠ JsVal.str "winner-stays-on" := by decide
  refine ⟨{ s with
      teams := s.teams ++ s.inPlay
      inPlay := []
      score := match s.score with
        | some _ => some ⟨0, 0⟩
        | none => none }, ?_, rfl, rfl, rfl, ?_, ?_⟩
  · simp [recordResult, hmode, htm, hbl, hne]
  · intro sc hsc
    simp [hsc]
  · intro hsc
    simp [hsc]

/-- C6 at `inPlay = [X, Y]`, `score = (3, 5)`, queue `[Q]`: the result has `inPlay = []`,
queue `[Q, X, Y]` and score `(0, 0)`. -/
theorem C6_classic_both_lose_witness :
    ∃ s', recordResult
        { mode := .str "classic", teams := [tm "Q" "1"],
          inPlay := [tm "X" "2", tm "Y" "3"], score := some ⟨3, 5⟩ }
        .undefined .undefined (.bool true) = .ok s' ∧
      s'.inPlay = [] ∧
      s'.teams = [tm "Q" "1"] ++ [tm "X" "2", tm "Y" "3"] ∧
      s'.mode = .str "classic" ∧
      (∀ sc, some (⟨3, 5⟩ : Score) = some sc → s'.score = some ⟨0, 0⟩) ∧
      ((some (⟨3, 5⟩ : Score)) = none → s'.score = none) :=
  C6_classic_both_lose
    { mode := .str "classic", teams := [tm "Q" "1"],
      inPlay := [tm "X" "2", tm "Y" "3"], score := some ⟨3, 5⟩ }
    .undefined .undefined (.bool true) rfl rfl

/-- A lookup that throws does so on a `null` element. -/
theorem findTeam_error {l : List (Option Team)} {v : JsVal} {e : Error}
    (h : findTeam l v = .error e) : e = .typeErrorNullElement ∧ none ∈ l := by
  induction l with
  | nil => cases h
  | cons x rest ih =>
    cases x with
    | none =>
      simp only [findTeam] at h
      injection h with h
      exact ⟨h.symm, List.mem_cons_self _ _⟩
    | some t =>
      simp only [findTeam] at h
      split at h
      · cases h
      · exact ⟨(ih h).1, List.mem_cons_of_mem _ (ih h).2⟩

/-- On a list of team objects every lookup completes. -/
theorem findTeam_complete {l : List (Option Team)} (h : none ∉ l) (v : JsVal) :
    ∃ r, findTeam l v = .ok r := by
  cases hf : findTeam l v with
  | ok r => exact ⟨r, rfl⟩
  | error e => exact absurd (findTeam_error hf).2 h

/-- C8 as stated fails: with the winner id omitted (and likewise when it is `null` or
empty) the handler does not reach the lookup; it answers `Invalid game result`, not
`Invalid team IDs`.  And with `null` and team `1` in play (session reached by
`opsNullInPlay`), the lookup of the unknown winner `7` throws on the `null` element. -/
theorem C8_counterexample :
    recordResult
      { mode := .str "winner-stays-on", teams := [],
        inPlay := [tm "A" "1", tm "B" "2"], score := some ⟨0, 0⟩ }
      .undefined (.str "2") (.bool false) = .error .invalidGameResult ∧
    recordResult
      { mode := .str "winner-stays-on", teams := [],
        inPlay := [tm "A" "1", tm "B" "2"], score := some ⟨0, 0⟩ }
      (.str "1") .null (.bool false) = .error .invalidGameResult ∧
    recordResult
      { mode := .str "winner-stays-on", teams := [],
        inPlay := [tm "A" "1", tm "B" "2"], score := some ⟨0, 0⟩ }
      (.str "") (.str "2") (.bool false) = .error .invalidGameResult ∧
    Error.message .invalidGameResult = "Invalid game result" ∧
    Error.message .invalidGameResult ≠ Error.message .invalidTeamIds ∧
    run freshSession opsNullInPlay =
      { mode := .str "winner-stays-on", teams := [],
        inPlay := [none, some (tm "A" "1")], score := some ⟨0, 0⟩ } ∧
    recordResult (run freshSession opsNullInPlay) (.str "7") (.str "1") (.bool false) =
      .error .typeErrorNullElement ∧
    Error.status .typeErrorNullElement = 500 := by
  decide

/-- C8 amended: in winner-stays-on mode with a falsy `bothLose`, when `winner` or `loser`
does not resolve to an in-play team the handler fails and the persisted session is the
prior one.  The answer is `Invalid game result` when either value is falsy (omitted,
`null`, empty).  When both are truthy it is `Invalid team IDs` if both lookups complete,
which they do whenever the in-play list holds only team objects, and the thrown
`TypeError` (500) if a lookup reads a `null` element before it finds its team. -/
theorem C8_invalid_reference (s : Session) (winner loser bothLose : JsVal)
    (hmode : s.mode = .str "winner-stays-on") (hbl : bothLose.truthy = false)
    (hres : (∀ t, findTeam s.inPlay winner ≠ .ok (some t)) ∨
      (∀ t, findTeam s.inPlay loser ≠ .ok (some t))) :
    (∃ e, recordResult s winner loser bothLose = .error e ∧
      ((winner.truthy && loser.truthy) = false → e = .invalidGameResult) ∧
      ((winner.truthy && loser.truthy) = true →
        (∃ r, findTeam s.inPlay winner = .ok r) → (∃ r, findTeam s.inPlay loser = .ok r) →
        e = .invalidTeamIds) ∧
      ((winner.truthy && loser.truthy) = true →
        ((∃ x, findTeam s.inPlay winner = .error x) ∨
          (∃ x, findTeam s.inPlay loser = .error x)) →
        e = .typeErrorNullElement)) ∧
    (none ∉ s.inPlay → ∀ v, ∃ r, findTeam s.inPlay v = .ok r) ∧
    step s (.recordResult winner loser bothLose) = s ∧
    Error.message .invalidTeamIds = "Invalid team IDs" ∧
    Error.message .invalidGameResult = "Invalid game result" ∧
    Error.status .typeErrorNullElement = 500 := by
  have htm : (JsVal.str "winner-stays-on").truthy = true := by decide
  have key : ∃ e, recordResult s winner loser bothLose = .error e ∧
      ((winner.truthy && loser.truthy) = false → e = .invalidGameResult) ∧
      ((winner.truthy && loser.truthy) = true →
        (∃ r, findTeam s.inPlay winner = .ok r) → (∃ r, findTeam s.inPlay loser = .ok r) →
        e = .invalidTeamIds) ∧
      ((winner.truthy && loser.truthy) = true →
        ((∃ x, findTeam s.inPlay winner = .error x) ∨
          (∃ x, findTeam s.inPlay loser = .error x)) →
        e = .typeErrorNullElement) := by
    by_cases hwl : (winner.truthy && loser.truthy) = true
    · cases hw : findTeam s.inPlay winner with
      | error x =>
        refine ⟨x, by simp [recordResult, hmode, htm, hbl, hwl, hw], by simp [hwl], ?_, ?_⟩
        · rintro - ⟨r, hr⟩
          cases hr
        · intro _ _
          exact (findTeam_error hw).1
      | ok rw =>
        cases hl : findTeam s.inPlay loser with
        | error x =>
          refine ⟨x, by simp [recordResult, hmode, htm, hbl, hwl, hw, hl], by simp [hwl],
            ?_, ?_⟩
          · rintro - - ⟨r, hr⟩
            cases hr
          · intro _ _
            exact (findTeam_error hl).1
        | ok rl =>
          have hno : rw = none ∨ rl = none := by
            rcases hres with h | h
            · left
              cases rw with
              | none => rfl
              | some t => exact absurd hw (h t)
            · right
              cases rl with
              | none => rfl
              | some t => exact absurd hl (h t)
          refine ⟨.invalidTeamIds, ?_, by simp [hwl], fun _ _ _ => rfl, ?_⟩
          · rcases hno with rfl | rfl
            · simp [recordResult, hmode, htm, hbl, hwl, hw, hl]
            · cases rw <;> simp [recordResult, hmode, htm, hbl, hwl, hw, hl]
          · rintro - (⟨x, hx⟩ | ⟨x, hx⟩)
            · cases hx
            · cases hx
    · have hwl' : (winner.truthy && loser.truthy) = false := by simpa using hwl
      refine ⟨.invalidGameResult, by simp [recordResult, hmode, htm, hbl, hwl'],
        fun _ => rfl, ?_, ?_⟩
      · intro h
        rw [hwl'] at h
        cases h
      · intro h
        rw [hwl'] at h
        cases h
  obtain ⟨e, he, h1, h2, h3⟩ := key
  refine ⟨⟨e, he, h1, h2, h3⟩, fun h v => findTeam_complete h v, ?_, rfl, rfl, rfl⟩
  simp only [step, he, persisted]

/-- C8 at `inPlay = [A, B]` (ids `1`, `2`): winner `7` is not in play, the answer is
`Invalid team IDs` and the session is unchanged. -/
theorem C8_invalid_reference_witness :
    recordResult
      { mode := .str "winner-stays-on", teams := [tm "C" "3"],
        inPlay := [tm "A" "1", tm "B" "2"], score := some ⟨0, 0⟩ }
      (.str "7") (.str "2") (.bool false) = .error .invalidTeamIds ∧
    step
      { mode := .str "winner-stays-on", teams := [tm "C" "3"],
        inPlay := [tm "A" "1", tm "B" "2"], score := some ⟨0, 0⟩ }
      (.recordResult (.str "7") (.str "2") (.bool false)) =
      { mode := .str "winner-stays-on", teams := [tm "C" "3"],
        inPlay := [tm "A" "1", tm "B" "2"], score := some ⟨0, 0⟩ } :=
  ⟨by decide,
   (C8_invalid_reference
     { mode := .str "winner-stays-on", teams := [tm "C" "3"],
       inPlay := [tm "A" "1", tm "B" "2"], score := some ⟨0, 0⟩ }
     (.str "7") (.str "2") (.bool false) rfl rfl
     (Or.inl (fun t h => by
       have h0 : findTeam [some (tm "A" "1"), some (tm "B" "2")] (.str "7") = .ok none := by
         decide
       rw [h0] at h
       cases h))).2.2.1⟩

/-! ## Adding a team -/

/-- C7, evaluated: with `Alpha` in play (and not queued), adding `" Alpha "` is accepted
and a second team named `Alpha` is queued; the duplicate check of the handler looks at
`teams` (the queue) only.  With `Alpha` queued the same request is rejected with `Team
name already exists`. -/
theorem C7_duplicate_of_in_play_accepted :
    run freshSession opsAlphaInPlay =
      { mode := .null, teams := [],
        inPlay := [tm "Alpha" "1", tm "Beta" "2"], score := some ⟨0, 0⟩ } ∧
    addTeam (run freshSession opsAlphaInPlay) (.str " Alpha ") 3 =
      .ok { mode := .null, teams := [tm "Alpha" "3"],
            inPlay := [tm "Alpha" "1", tm "Beta" "2"], score := some ⟨0, 0⟩ } ∧
    addTeam (run freshSession [.addTeam (.str "Alpha") 1]) (.str " Alpha ") 3 =
      .error .duplicateName := by
  decide


/-! ## Queue and in-play list stay disjoint -/

/-- The refill loop only moves teams: queue and in-play list together are permuted. -/
theorem refill_perm (q : List (Option Team)) : ∀ ip : List (Option Team),
    ((refill ip q).2 ++ (refill ip q).1).Perm (q ++ ip) := by
  induction q with
  | nil => intro ip; simp [refill]
  | cons t rest ih =>
    intro ip
    by_cases h : ip.length < 2
    · simp only [refill, h, if_true]
      refine (ih (ip ++ [t])).trans ?_
      rw [← List.append_assoc, List.cons_append]
      exact List.perm_append_singleton t (rest ++ ip)
    · simp [refill, h]

/-- A team found by `findTeam` is in the list and carries the requested id. -/
theorem findTeam_some {l : List (Option Team)} {v : JsVal} {t : Team}
    (h : findTeam l v = .ok (some t)) : some t ∈ l ∧ JsVal.str t.id = v := by
  induction l with
  | nil => cases h
  | cons x rest ih =>
    cases x with
    | none => cases h
    | some u =>
      simp only [findTeam] at h
      split at h
      · rename_i hu
        injection h with h
        injection h with h
        subst h
        exact ⟨List.mem_cons_self _ _, hu⟩
      · exact ⟨List.mem_cons_of_mem _ (ih h).1, (ih h).2⟩

/-- The duplicate check answers `false` only on a list of team objects none of which
has the name. -/
theorem nameTaken_false {l : List (Option Team)} {n : String}
    (h : nameTaken l n = .ok false) : none ∉ l ∧ ∀ t : Team, some t ∈ l → t.name ≠ n := by
  induction l with
  | nil => simp
  | cons x rest ih =>
    cases x with
    | none => cases h
    | some u =>
      simp only [nameTaken] at h
      split at h
      · cases h
      · rename_i hu
        obtain ⟨h1, h2⟩ := ih h
        refine ⟨by simpa using h1, ?_⟩
        intro t ht
        rcases List.mem_cons.mp ht with e | ht
        · injection e with e
          subst e
          exact hu
        · exact h2 t ht

/-- On a list of team objects none of which has the name, the duplicate check answers
`false`. -/
theorem nameTaken_free {l : List (Option Team)} {n : String} (h0 : none ∉ l)
    (h : ∀ t : Team, some t ∈ l → t.name ≠ n) : nameTaken l n = .ok false := by
  induction l with
  | nil => rfl
  | cons x rest ih =>
    cases x with
    | none => exact absurd (List.mem_cons_self _ _) h0
    | some u =>
      have hu : u.name ≠ n := h u (List.mem_cons_self _ _)
      simp only [nameTaken, hu, if_false]
      exact ih (fun hm => h0 (List.mem_cons_of_mem _ hm))
        (fun t ht => h t (List.mem_cons_of_mem _ ht))

/-- On a list that holds `null` and no team of the name, the duplicate check throws. -/
theorem nameTaken_null {l : List (Option Team)} {n : String} (h0 : none ∈ l)
    (h : ∀ t : Team, some t ∈ l → t.name ≠ n) :
    nameTaken l n = .error .typeErrorNullElement := by
  induction l with
  | nil => simp at h0
  | cons x rest ih =>
    cases x with
    | none => rfl
    | some u =>
      have hu : u.name ≠ n := h u (List.mem_cons_self _ _)
      simp only [nameTaken, hu, if_false]
      exact ih (by simpa using h0) (fun t ht => h t (List.mem_cons_of_mem _ ht))

/-- Inversion of a successful `addTeam`. -/
theorem addTeam_ok {s s' : Session} {name : JsVal} {now : Nat}
    (h : addTeam s name now = .ok s') :
    ∃ n, name = .str n ∧ jsTrim n ≠ "" ∧
      none ∉ s.teams ∧
      (∀ t : Team, some t ∈ s.teams → t.name ≠ jsTrim n) ∧
      s' = { s with teams := s.teams ++ [some { name := jsTrim n, id := Nat.repr now }] } := by
  unfold addTeam at h
  split at h
  · cases h
  · cases name with
    | str n =>
      simp only at h
      split at h
      · cases h
      · rename_i h1
        cases hn : nameTaken s.teams (jsTrim n) with
        | error e => simp [hn] at h
        | ok b =>
          cases b with
          | true => simp [hn] at h
          | false =>
            simp only [hn] at h
            injection h with h
            exact ⟨n, rfl, h1, (nameTaken_false hn).1, (nameTaken_false hn).2, h.symm⟩
    | _ => cases h

/-- Inversion of a successful `startGame`. -/
theorem startGame_ok {s s' : Session} (h : startGame s = .ok s') :
    s.inPlay.length < 2 ∧ 2 ≤ s.teams.length ∧
    s' = { s with
      teams := s.teams.drop 2
      inPlay := s.inPlay ++ s.teams.take 2
      score := match s.score with
        | some _ => some ⟨0, 0⟩
        | none => none } := by
  unfold startGame at h
  split at h
  · cases h
  · split at h
    · cases h
    · injection h with h
      exact ⟨by omega, by omega, h.symm⟩

/-- A filter that completes ran on a list of team objects. -/
theorem filterOthers_inv {teamId : String} : ∀ {l k : List (Option Team)},
    filterOthers l teamId = .ok k → none ∉ l ∧ k = l.filter (isOther teamId)
  | [], k, h => by
    injection h with h
    exact ⟨by simp, h.symm⟩
  | none :: _, k, h => by cases h
  | some team :: rest, k, h => by
    by_cases h0 : none ∈ rest
    · simp [filterOthers, filterOthers_error teamId rest h0] at h
    · have hk := filterOthers_ok teamId (some team :: rest) (by simpa using h0)
      rw [hk] at h
      injection h with h
      exact ⟨by simpa using h0, h.symm⟩

/-- Inversion of a successful `removeTeam`. -/
theorem removeTeam_ok {s s' : Session} {teamId : String} (h : removeTeam s teamId = .ok s') :
    none ∉ s.teams ∧ none ∉ s.inPlay ∧
    s' = { s with
      teams := s.teams.filter (isOther teamId)
      inPlay := s.inPlay.filter (isOther teamId) } := by
  unfold removeTeam at h
  cases hq : filterOthers s.teams teamId with
  | error e => simp [hq] at h
  | ok q =>
    cases hp : filterOthers s.inPlay teamId with
    | error e => simp [hq, hp] at h
    | ok p =>
      simp only [hq, hp] at h
      injection h with h
      obtain ⟨h1, rfl⟩ := filterOthers_inv hq
      obtain ⟨h2, rfl⟩ := filterOthers_inv hp
      exact ⟨h1, h2, h.symm⟩

/-- Inversion of a successful `recordResult`: the teams are permuted, or the queue
followed by the in-play list becomes the prior queue, the losing team and the winning
team. -/
theorem recordResult_ok {s s' : Session} {w l b : JsVal}
    (h : recordResult s w l b = .ok s') :
    (s'.teams ++ s'.inPlay).Perm (s.teams ++ s.inPlay) ∨
    (b.truthy = false ∧ ∃ wt lt, findTeam s.inPlay w = .ok (some wt) ∧
      findTeam s.inPlay l = .ok (some lt) ∧
      (s'.teams ++ s'.inPlay).Perm ((s.teams ++ [some lt]) ++ [some wt])) := by
  unfold recordResult at h
  split at h
  · cases h
  · split at h
    · split at h
      · injection h with h
        subst h
        exact Or.inl (by simpa using refill_perm (s.teams ++ s.inPlay) [])
      · rename_i hb
        split at h
        · cases hw : findTeam s.inPlay w with
          | error e => simp [hw] at h
          | ok rw =>
            cases hl : findTeam s.inPlay l with
            | error e => simp [hw, hl] at h
            | ok rl =>
              cases rw with
              | none => simp [hw, hl] at h
              | some wt =>
                cases rl with
                | none => simp [hw, hl] at h
                | some lt =>
                  simp only [hw, hl] at h
                  injection h with h
                  subst h
                  exact Or.inr ⟨by simpa using hb, wt, lt, rfl, rfl,
                    refill_perm (s.teams ++ [some lt]) [some wt]⟩
        · cases h
    · split at h
      · split at h
        · injection h with h
          subst h
          exact Or.inl (by simp)
        · cases h
      · injection h with h
        subst h
        exact Or.inl (List.Perm.refl _)

/-- An error answer persists the prior session, so the invariant need only be checked on
success. -/
theorem persisted_ids (s : Session) (r : Except Error Session) (hs : s.ids.Nodup)
    (h : ∀ s', r = .ok s' → s'.ids.Nodup) : (persisted s r).ids.Nodup := by
  cases r with
  | error e => exact hs
  | ok s' => exact h s' rfl

/-- Distinctness of ids is kept by a permutation of the teams. -/
theorem ids_nodup_of_perm (s s' : Session)
    (h : (s'.teams ++ s'.inPlay).Perm (s.teams ++ s.inPlay)) (hs : s.ids.Nodup) :
    s'.ids.Nodup :=
  ((((h.filterMap id)).map Team.id).nodup_iff).mpr hs

/-- One admissible request keeps the ids of the session pairwise distinct. -/
theorem step_ids_nodup (s : Session) (op : Op) (hs : s.ids.Nodup)
    (hop : Op.Admissible s op) : (step s op).ids.Nodup := by
  cases op with
  | configure mode => exact hs
  | updateScore t1 t2 => exact hs
  | addTeam name now =>
    refine persisted_ids s _ hs ?_
    intro s' h
    obtain ⟨n, -, -, -, -, rfl⟩ := addTeam_ok h
    have hp : ((s.teams ++ [some (⟨jsTrim n, Nat.repr now⟩ : Team)]) ++ s.inPlay).Perm
        (some ⟨jsTrim n, Nat.repr now⟩ :: (s.teams ++ s.inPlay)) := by
      simp
    simp only [Session.ids, List.reduceOption]
    rw [(((hp.filterMap id)).map Team.id).nodup_iff]
    have e1 : List.filterMap id (some (⟨jsTrim n, Nat.repr now⟩ : Team) :: (s.teams ++ s.inPlay)) =
        ⟨jsTrim n, Nat.repr now⟩ :: List.filterMap id (s.teams ++ s.inPlay) := rfl
    rw [e1, List.map_cons, List.nodup_cons]
    exact ⟨hop, hs⟩
  | removeTeam teamId =>
    refine persisted_ids s _ hs ?_
    intro s' h
    obtain ⟨-, -, rfl⟩ := removeTeam_ok h
    simp only [Session.ids]
    rw [← List.filter_append]
    exact List.Nodup.sublist
      ((((List.filter_sublist _).filterMap id)).map Team.id) hs
  | reorderQueue teams =>
    cases teams with
    | none => exact hs
    | some l =>
      simp only [Op.Admissible] at hop
      exact ids_nodup_of_perm s { s with teams := l } (hop.append_right _) hs
  | startGame =>
    refine persisted_ids s _ hs ?_
    intro s' h
    obtain ⟨-, -, rfl⟩ := startGame_ok h
    refine ids_nodup_of_perm s _ ?_ hs
    have e : s.teams ++ s.inPlay = s.teams.take 2 ++ (s.teams.drop 2 ++ s.inPlay) := by
      rw [← List.append_assoc, List.take_append_drop]
    rw [e]
    simp only
    rw [← List.append_assoc]
    exact List.perm_append_comm
  | recordResult w l b =>
    refine persisted_ids s _ hs ?_
    intro s' h
    rcases recordResult_ok h with hp | ⟨hb, wt, lt, hw, hl, hp⟩
    · exact ids_nodup_of_perm s s' hp hs
    · obtain ⟨hwm, hwe⟩ := findTeam_some hw
      obtain ⟨hlm, hle⟩ := findTeam_some hl
      have hne : wt.id ≠ lt.id := by
        rcases hop with hop | hop
        · rw [hb] at hop
          cases hop
        · intro e
          apply hop
          rw [← hwe, ← hle, e]
      simp only [Session.ids, List.reduceOption]
      rw [(((hp.filterMap id)).map Team.id).nodup_iff]
      simp only [Session.ids, List.reduceOption, List.filterMap_append, List.map_append,
        List.nodup_append] at hs
      obtain ⟨h1, h2, h3⟩ := hs
      have hmem : ∀ {t : Team} {l : List (Option Team)}, some t ∈ l →
          t.id ∈ (l.filterMap id).map Team.id := by
        intro t l ht
        exact List.mem_map_of_mem _ (List.mem_filterMap.mpr ⟨some t, ht, rfl⟩)
      have hw' : wt.id ∉ (s.teams.filterMap id).map Team.id := fun hc => h3 hc (hmem hwm)
      have hl' : lt.id ∉ (s.teams.filterMap id).map Team.id := fun hc => h3 hc (hmem hlm)
      have e2 : List.map Team.id (List.filterMap id ([some lt] ++ [some wt])) =
          [lt.id, wt.id] := rfl
      rw [List.append_assoc, List.filterMap_append, List.map_append, List.nodup_append, e2]
      refine ⟨h1, ?_, ?_⟩
      · simp only [List.nodup_cons, List.mem_singleton, List.not_mem_nil, not_false_eq_true,
          List.nodup_nil, and_true]
        exact fun e => hne e.symm
      · intro x hx hx'
        simp only [List.mem_cons, List.mem_singleton, List.not_mem_nil, or_false] at hx'
        rcases hx' with rfl | rfl
        · exact hl' hx
        · exact hw' hx

/-- An admissible sequence of requests keeps the ids of the session pairwise distinct. -/
theorem run_ids_nodup (ops : List Op) : ∀ s : Session, s.ids.Nodup → AdmissibleRun s ops →
    (run s ops).ids.Nodup := by
  induction ops with
  | nil => intro s hs _; exact hs
  | cons op ops ih =>
    intro s hs h
    exact ih (step s op) (step_ids_nodup s op hs h.1) h.2

/-- Pairwise distinct ids give disjointness of queue and in-play list. -/
theorem disjoint_of_ids_nodup {s : Session} (h : s.ids.Nodup) : IdsDisjoint s := by
  intro t ht u hu e
  simp only [Session.ids, List.reduceOption, List.filterMap_append, List.map_append,
    List.nodup_append] at h
  exact h.2.2 (List.mem_map_of_mem _ ht) (e ▸ List.mem_map_of_mem _ hu)

/-- Evaluated: with `A`, `B` in play and `C` queued, a result that names the in-play id `1`
both as winner and as loser is accepted; team `A` is then both in play and queued, and
team `B` is gone. -/
theorem recordResult_same_winner_and_loser :
    recordResult
      { mode := .str "winner-stays-on", teams := [tm "C" "3"],
        inPlay := [tm "A" "1", tm "B" "2"], score := some ⟨0, 0⟩ }
      (.str "1") (.str "1") (.bool false) =
      .ok { mode := .str "winner-stays-on", teams := [tm "A" "1"],
            inPlay := [tm "A" "1", tm "C" "3"], score := some ⟨0, 0⟩ } := by
  decide

/-- C2 as stated fails: after `A`, `B`, `C` join and a game starts with `A` and `B`, a
`reorderQueue` with the list `[A, C]` is accepted, and the id of `A` is then both in the
queue and in play. -/
theorem C2_counterexample :
    run freshSession opsReorderInPlay =
      { mode := .null, teams := [tm "A" "1", tm "C" "3"],
        inPlay := [tm "A" "1", tm "B" "2"], score := some ⟨0, 0⟩ } ∧
    ¬ IdsDisjoint (run freshSession opsReorderInPlay) := by
  decide

/-- C2 amended: from a newly created session (of any mode), after every sequence of
requests in which each `reorderQueue` list is a permutation of the current queue, each
`addTeam` runs at a clock value whose id is not in the session, and each result with a
falsy `bothLose` names two different values as winner and loser, no team id occurs both
in the queue and in play. -/
theorem C2_disjoint_of_admissible (mode : JsVal) (ops : List Op)
    (h : AdmissibleRun (newSession mode) ops) :
    IdsDisjoint (run (newSession mode) ops) :=
  disjoint_of_ids_nodup
    (run_ids_nodup ops (newSession mode) (by simp [Session.ids, newSession]) h)

/-- C2 on the sequence `opsRotation`, which is admissible and ends with `B`, `A` in play
and `C` queued. -/
theorem C2_disjoint_of_admissible_witness :
    AdmissibleRun (newSession .null) opsRotation ∧
    run (newSession .null) opsRotation =
      { mode := .str "winner-stays-on", teams := [tm "C" "3"],
        inPlay := [tm "B" "2", tm "A" "1"], score := some ⟨3, 0⟩ } ∧
    IdsDisjoint (run (newSession .null) opsRotation) :=
  ⟨by decide, by decide, C2_disjoint_of_admissible .null opsRotation (by decide)⟩

/-! ## Score update -/

/-- The decimal digit characters have their value. -/
theorem digitValue_digitChar (d : Nat) (h : d < 10) :
    digitValue 10 (Nat.digitChar d) = some d := by
  interval_cases d <;> decide

/-- A character with a decimal digit value is one of `0` to `9`. -/
theorem digitValue_ten_bounds {c : Char} {d : Nat} (h : digitValue 10 c = some d) :
    48 ≤ c.toNat ∧ c.toNat ≤ 57 := by
  unfold digitValue at h
  simp only at h
  split at h
  · assumption
  · simp at h

/-- Reading back the decimal digits of `n`. -/
theorem parseDigits_toDigitsCore (rest : List Char) : ∀ (fuel n : Nat) (ds : List Char)
    (seen : Bool), n < fuel →
    parseDigits 10 (Nat.toDigitsCore 10 fuel n ds ++ rest) 0 seen =
      parseDigits 10 (ds ++ rest) n true := by
  intro fuel
  induction fuel with
  | zero => intro n ds seen h; omega
  | succ fuel ih =>
    intro n ds seen h
    have hd := digitValue_digitChar (n % 10) (Nat.mod_lt _ (by decide))
    by_cases h0 : n / 10 = 0
    · have hn : n % 10 = n := Nat.mod_eq_of_lt (by omega)
      simp only [Nat.toDigitsCore, h0, if_true, List.cons_append, parseDigits, hd]
      simp [hn]
    · simp only [Nat.toDigitsCore, h0, if_false]
      rw [ih (n / 10) _ seen (by omega)]
      simp only [List.cons_append, parseDigits, hd]
      congr 1
      omega

/-- The digit run ends at the first character that is not a digit. -/
theorem parseDigits_stop (rest : List Char) (n : Nat)
    (h : ∀ c, rest.head? = some c → digitValue 10 c = none) :
    parseDigits 10 rest n true = some n := by
  cases rest with
  | nil => simp [parseDigits]
  | cons c cs => simp [parseDigits, h c rfl]

/-- The decimal rendering of a number consists of digits. -/
theorem toDigitsCore_digits : ∀ (fuel n : Nat) (ds : List Char),
    (∀ c ∈ ds, (digitValue 10 c).isSome) →
    ∀ c ∈ Nat.toDigitsCore 10 fuel n ds, (digitValue 10 c).isSome := by
  intro fuel
  induction fuel with
  | zero => intro n ds h; simpa [Nat.toDigitsCore] using h
  | succ fuel ih =>
    intro n ds h
    have hd := digitValue_digitChar (n % 10) (Nat.mod_lt _ (by decide))
    have h' : ∀ c ∈ Nat.digitChar (n % 10) :: ds, (digitValue 10 c).isSome := by
      intro c hc
      rcases List.mem_cons.mp hc with rfl | hc
      · simp [hd]
      · exact h c hc
    by_cases h0 : n / 10 = 0
    · simpa only [Nat.toDigitsCore, h0, if_true] using h'
    · simpa only [Nat.toDigitsCore, h0, if_false] using ih (n / 10) _ h'

/-- A decimal digit is neither white space, nor a sign, nor the hexadecimal marker. -/
theorem digit_not_special {c : Char} {d : Nat} (h : digitValue 10 c = some d) :
    isJsWhitespace c = false ∧ c ≠ '-' ∧ c ≠ '+' ∧ c ≠ 'x' ∧ c ≠ 'X' := by
  have hb := digitValue_ten_bounds h
  refine ⟨?_, ?_, ?_, ?_, ?_⟩
  · simp only [isJsWhitespace, Bool.or_eq_false_iff, Bool.and_eq_false_imp, beq_eq_false_iff_ne,
      decide_eq_true_eq, decide_eq_false_iff_not]
    omega
  all_goals
    rintro rfl
    revert hb
    decide

/-- Without leading white space or sign, `parseInt` reads the unsigned number. -/
theorem parseIntChars_of_head {c : Char} {tl : List Char} (hws : isJsWhitespace c = false)
    (h1 : c ≠ '-') (h2 : c ≠ '+') :
    parseIntChars (c :: tl) = (parseUnsigned (c :: tl)).map (fun v => (v : Int)) := by
  unfold parseIntChars
  simp only [List.dropWhile, hws]
  split
  · rename_i heq
    injection heq with e _
    exact absurd e h1
  · rename_i heq
    injection heq with e _
    exact absurd e h2
  · rfl

/-- Without a `0x` start the radix is 10. -/
theorem parseUnsigned_decimal {l : List Char} (h : ∀ cs, l ≠ '0' :: 'x' :: cs)
    (h' : ∀ cs, l ≠ '0' :: 'X' :: cs) : parseUnsigned l = parseDigits 10 l 0 false := by
  unfold parseUnsigned
  split
  · exact absurd rfl (h _)
  · exact absurd rfl (h' _)
  · rfl

/-- A string without decimal digits has no unsigned number at its front. -/
theorem parseUnsigned_no_digit {l : List Char} (h : ∀ c ∈ l, digitValue 10 c = none) :
    parseUnsigned l = none := by
  rw [parseUnsigned_decimal]
  · cases l with
    | nil => simp [parseDigits]
    | cons c cs => simp [parseDigits, h c (List.mem_cons_self _ _)]
  · rintro cs rfl
    have := h '0' (List.mem_cons_self _ _)
    revert this
    decide
  · rintro cs rfl
    have := h '0' (List.mem_cons_self _ _)
    revert this
    decide

/-- On a string without decimal digits `parseInt` yields `NaN`. -/
theorem parseIntChars_no_digit (cs : List Char) (h : ∀ c ∈ cs, digitValue 10 c = none) :
    parseIntChars cs = none := by
  have hsub : ∀ c ∈ cs.dropWhile isJsWhitespace, digitValue 10 c = none := fun c hc =>
    h c ((List.dropWhile_sublist _).subset hc)
  unfold parseIntChars
  split
  · rename_i rest heq
    rw [heq] at hsub
    rw [parseUnsigned_no_digit (fun c hc => hsub c (List.mem_cons_of_mem _ hc))]
    rfl
  · rename_i rest heq
    rw [heq] at hsub
    rw [parseUnsigned_no_digit (fun c hc => hsub c (List.mem_cons_of_mem _ hc))]
    rfl
  · rw [parseUnsigned_no_digit hsub]
    rfl

/-- On the decimal rendering of `n`, followed by text that does not continue the number,
`parseInt` yields `n`. -/
theorem parseIntChars_decimal (n : Nat) (rest : List Char)
    (h : ∀ c, rest.head? = some c → digitValue 10 c = none ∧ c ≠ 'x' ∧ c ≠ 'X') :
    parseIntChars (Nat.toDigits 10 n ++ rest) = some (n : Int) := by
  have hp : parseDigits 10 (Nat.toDigits 10 n ++ rest) 0 false = some n := by
    rw [Nat.toDigits, parseDigits_toDigitsCore rest (n + 1) n [] false (by omega)]
    simpa using parseDigits_stop rest n (fun c hc => (h c hc).1)
  have hdig : ∀ c ∈ Nat.toDigits 10 n, (digitValue 10 c).isSome :=
    toDigitsCore_digits (n + 1) n [] (by simp)
  cases hl : Nat.toDigits 10 n with
  | nil =>
    rw [hl] at hp
    cases rest with
    | nil => simp [parseDigits] at hp
    | cons c cs => simp [parseDigits, (h c rfl).1] at hp
  | cons c cs =>
    rw [hl] at hp hdig
    obtain ⟨d, hd⟩ := Option.isSome_iff_exists.mp (hdig c (List.mem_cons_self _ _))
    obtain ⟨hws, hm, hpl, -, -⟩ := digit_not_special hd
    rw [List.cons_append, parseIntChars_of_head hws hm hpl, parseUnsigned_decimal, ← List.cons_append,
      hp]
    · rfl
    · intro tl e
      injection e with _ e
      cases cs with
      | nil =>
        have := (h 'x' (by rw [List.nil_append] at e; rw [e]; rfl)).2.1
        exact this rfl
      | cons c2 cs2 =>
        injection e with e _
        obtain ⟨d2, hd2⟩ := Option.isSome_iff_exists.mp
          (hdig c2 (List.mem_cons_of_mem _ (List.mem_cons_self _ _)))
        exact (digit_not_special hd2).2.2.2.1 e
    · intro tl e
      injection e with _ e
      cases cs with
      | nil =>
        have := (h 'X' (by rw [List.nil_append] at e; rw [e]; rfl)).2.2
        exact this rfl
      | cons c2 cs2 =>
        injection e with e _
        obtain ⟨d2, hd2⟩ := Option.isSome_iff_exists.mp
          (hdig c2 (List.mem_cons_of_mem _ (List.mem_cons_self _ _)))
        exact (digit_not_special hd2).2.2.2.2 e

/-- Below `2^53` every natural number is its own Number value. -/
theorem toDouble_small (m : Nat) (h : m < 2 ^ 53) : toDouble m = .int m := by
  unfold toDouble
  rw [if_pos h]

/-- A non-negative integer is stored as it is. -/
theorem clampScore_nat (n : Nat) (h : (n : Int).natAbs < 2 ^ 53) :
    clampScore (.num n h) = .int n := by
  have := parseIntChars_decimal n [] (by simp)
  rw [List.append_nil] at this
  have hp : jsParseInt (.num n h) = some (n : Int) := by
    show parseIntChars (Nat.toDigits 10 n).asString.data = some (n : Int)
    simpa [List.asString] using this
  have hn : n < 2 ^ 53 := by simpa using h
  simp [clampScore, hp, toDouble_small n hn]

/-- A negative integer is stored as 0. -/
theorem clampScore_neg (n : Int) (h : n.natAbs < 2 ^ 53) (hneg : n < 0) :
    clampScore (.num n h) = 0 := by
  cases n with
  | ofNat m => exact absurd hneg (by simp)
  | negSucc m =>
    have e : ("-" ++ Nat.repr (m + 1)).data = '-' :: (Nat.repr (m + 1)).data := by
      simp [String.data_append]
    have e2 : parseIntChars ('-' :: (Nat.repr (m + 1)).data) =
        (parseUnsigned (Nat.repr (m + 1)).data).map (fun v => - (v : Int)) := by
      unfold parseIntChars
      have : isJsWhitespace '-' = false := by decide
      simp only [List.dropWhile, this]
    have hp : jsParseInt (.num (Int.negSucc m) h) =
        (parseUnsigned (Nat.repr (m + 1)).data).map (fun v => - (v : Int)) := by
      show parseIntChars ("-" ++ Nat.repr (m + 1)).data = _
      rw [e, e2]
    simp only [clampScore, hp]
    cases parseUnsigned (Nat.repr (m + 1)).data with
    | none => rfl
    | some v =>
      have : (-(v : Int)).toNat = 0 := by simp
      simp [this, toDouble]
      rfl

/-- A string without decimal digits is stored as 0. -/
theorem clampScore_no_digit (str : String) (h : ∀ c ∈ str.data, digitValue 10 c = none) :
    clampScore (.str str) = 0 := by
  have hp : jsParseInt (.str str) = none := parseIntChars_no_digit _ h
  simp [clampScore, hp]

/-- A string that starts with the decimal rendering of `n` is stored as `n`. -/
theorem clampScore_leading_digits (n : Nat) (rest : String) (hn : n < 2 ^ 53)
    (h : ∀ c, rest.data.head? = some c → digitValue 10 c = none ∧ c ≠ 'x' ∧ c ≠ 'X') :
    clampScore (.str (Nat.repr n ++ rest)) = .int n := by
  have e : (Nat.repr n ++ rest).data = Nat.toDigits 10 n ++ rest.data := by
    simp [String.data_append, Nat.repr, List.asString]
  have hp : jsParseInt (.str (Nat.repr n ++ rest)) = some (n : Int) := by
    show parseIntChars (Nat.repr n ++ rest).data = _
    rw [e, parseIntChars_decimal n rest.data h]
  simp [clampScore, hp, toDouble_small n hn]

set_option exponentiation.threshold 2000 in
set_option maxRecDepth 100000 in
/-- Evaluated: a hexadecimal string, a decimal string just above `2^53` (rounded to the
even neighbour), and a digit run beyond the range of doubles. -/
theorem clampScore_evaluated :
    clampScore (.str "0x1A") = 26 ∧
    clampScore (.str "9007199254740993") = .int 9007199254740992 ∧
    clampScore (.str (oneAndZeros 400)) = .infinity := by
  decide

/-- C9 as stated fails: the string `12abc` is not stored as 0 but as 12, the number its
leading digits denote, because `parseInt` reads the longest digit run at the front. -/
theorem C9_counterexample :
    clampScore (.str "12abc") = 12 ∧
    (updateScore freshSession (.str "12abc") .undefined).score = some ⟨12, 0⟩ := by
  decide

/-- C9 amended: `updateScore` has no error answer and leaves mode, queue and in-play list
as they were; afterwards the session has a score object; a slot whose value is omitted
keeps its prior value (0 when the session had no score object) and a slot whose value
`v` is supplied holds `Math.max(0, parseInt(v) || 0)`: 0 when `parseInt` yields `NaN`,
else the Number value of the integer read, cut at 0 from below, which below `2^53` is
that integer.  So: an integer number `n` with `0 ≤ n < 2^53` is stored as `n`; a
negative integer number above `-2^53`, `null`, a boolean and a string without decimal
digits are stored as 0; a string made of the decimal rendering of `n` below `2^53`
followed by text that starts with neither a decimal digit nor `x` or `X` is stored as
`n` (so `12abc` gives 12); `0x1A` is stored as 26, `9007199254740993` as
9007199254740992, and `1` followed by 400 zeros as `Infinity`. -/
theorem C9_updateScore (s : Session) (team1 team2 : JsVal) :
    (∃ sc, (updateScore s team1 team2).score = some sc ∧
      sc.team1 = (if team1 = .undefined then (backfilledScore s).team1
        else clampScore team1) ∧
      sc.team2 = (if team2 = .undefined then (backfilledScore s).team2
        else clampScore team2)) ∧
    (updateScore s team1 team2).mode = s.mode ∧
    (updateScore s team1 team2).teams = s.teams ∧
    (updateScore s team1 team2).inPlay = s.inPlay ∧
    (∀ sc, s.score = some sc → backfilledScore s = sc) ∧
    (s.score = none → backfilledScore s = ⟨0, 0⟩) ∧
    (∀ v, jsParseInt v = none → clampScore v = 0) ∧
    (∀ v i, jsParseInt v = some i → clampScore v = toDouble i.toNat) ∧
    (∀ m : Nat, m < 2 ^ 53 → toDouble m = .int m) ∧
    (∀ (n : Nat) (h : (n : Int).natAbs < 2 ^ 53), clampScore (.num n h) = .int n) ∧
    (∀ (n : Int) (h : n.natAbs < 2 ^ 53), n < 0 → clampScore (.num n h) = 0) ∧
    clampScore .null = 0 ∧
    (∀ b : Bool, clampScore (.bool b) = 0) ∧
    (∀ str : String, (∀ c ∈ str.data, digitValue 10 c = none) →
      clampScore (.str str) = 0) ∧
    (∀ (n : Nat) (rest : String), n < 2 ^ 53 →
      (∀ c, rest.data.head? = some c → digitValue 10 c = none ∧ c ≠ 'x' ∧ c ≠ 'X') →
      clampScore (.str (Nat.repr n ++ rest)) = .int n) ∧
    clampScore (.str "0x1A") = 26 ∧
    clampScore (.str "9007199254740993") = .int 9007199254740992 ∧
    clampScore (.str (oneAndZeros 400)) = .infinity := by
  refine ⟨?_, rfl, rfl, rfl, ?_, ?_, ?_, ?_, toDouble_small, clampScore_nat, clampScore_neg,
    by decide, by decide, clampScore_no_digit,
    fun n rest hn h => clampScore_leading_digits n rest hn h,
    clampScore_evaluated.1, clampScore_evaluated.2.1, clampScore_evaluated.2.2⟩
  · refine ⟨_, rfl, ?_, ?_⟩
    · by_cases h1 : team1 = .undefined <;> by_cases h2 : team2 = .undefined <;> simp [h1, h2]
    · by_cases h1 : team1 = .undefined <;> by_cases h2 : team2 = .undefined <;> simp [h1, h2]
  · intro sc h
    simp [backfilledScore, h]
  · intro h
    simp [backfilledScore, h]
  · intro v h
    simp [clampScore, h]
  · intro v i h
    simp [clampScore, h]

/-- C9 at the score `(4, 9)`: `team1 = -5` stores 0 and keeps slot 2; an omitted `team1`
with `team2 = 7` keeps slot 1 and stores 7; the strings `abc` and ` 42px` store 0 and
42. -/
theorem C9_updateScore_witness :
    (updateScore { mode := .str "classic", teams := [], inPlay := [], score := some ⟨4, 9⟩ }
      (.num (-5) (by decide)) .undefined).score = some ⟨0, 9⟩ ∧
    (updateScore { mode := .str "classic", teams := [], inPlay := [], score := some ⟨4, 9⟩ }
      .undefined (.num 7 (by decide))).score = some ⟨4, 7⟩ ∧
    (updateScore { mode := .str "classic", teams := [], inPlay := [], score := some ⟨4, 9⟩ }
      (.str "abc") (.str " 42px")).score = some ⟨0, 42⟩ ∧
    clampScore (.str "abc") = 0 ∧
    clampScore (.num (-5) (by decide)) = 0 :=
  ⟨by decide, by decide, by decide,
   (C9_updateScore freshSession .undefined .undefined).2.2.2.2.2.2.2.2.2.2.2.2.2.1 "abc"
     (by decide),
   (C9_updateScore freshSession .undefined .undefined).2.2.2.2.2.2.2.2.2.2.1 (-5)
     (by decide) (by decide)⟩

/-! ## Adding a team: success and ids -/

/-- A name that does not trim to empty is a non-empty string, hence truthy. -/
theorem truthy_str_of_trim {n : String} (h : jsTrim n ≠ "") : (JsVal.str n).truthy = true := by
  have hn : n ≠ "" := by
    rintro rfl
    exact h (by decide)
  simp [JsVal.truthy, hn]

/-- The only error of the duplicate test is the one thrown at a `null` element. -/
theorem nameTaken_error {n : String} {e : Error} : ∀ {l : List (Option Team)},
    nameTaken l n = .error e → e = .typeErrorNullElement
  | [], h => by cases h
  | none :: _, h => by
    injection h with h
    exact h.symm
  | some team :: rest, h => by
    unfold nameTaken at h
    by_cases hn : team.name = n
    · rw [if_pos hn] at h
      cases h
    · rw [if_neg hn] at h
      exact nameTaken_error h

/-- C11 as stated fails: after the queue of a session has been replaced by a list that
holds `null`, adding a team under a fresh valid name does not succeed: the duplicate
test reads `name` of `null` and throws, and the session stays as it was. -/
theorem C11_counterexample :
    run freshSession opsNullQueued =
      { mode := .null, teams := [none, some (tm "A" "1")], inPlay := [],
        score := some ⟨0, 0⟩ } ∧
    addTeam (run freshSession opsNullQueued) (.str "Delta") 7 =
      .error .typeErrorNullElement ∧
    step (run freshSession opsNullQueued) (.addTeam (.str "Delta") 7) =
      run freshSession opsNullQueued := by
  decide

/-- C11 amended: for a string name that does not trim to empty and equals no queued
team's name (in particular when it equals no existing team's name), `addTeam` on a
session whose queue holds only team objects succeeds and the result is the prior session
with one team appended at the end of the queue, named by the trimmed input and with the
clock string as id; in-play list, mode and score are as before.  On a session whose
queue holds a `null` element the same request throws a `TypeError` (status 500) and the
session is unchanged.  `addTeam` answers `Team name is required` exactly when the name
is missing in the sense of the handler's test `!name` (omitted, `null`, or another falsy
value) or is a string that trims to empty. -/
theorem C11_addTeam (s : Session) (now : Nat) :
    (∀ n : String, jsTrim n ≠ "" → none ∉ s.teams →
      (∀ t : Team, some t ∈ s.teams → t.name ≠ jsTrim n) →
      addTeam s (.str n) now =
        .ok { s with
          teams := s.teams ++ [some { name := jsTrim n, id := Nat.repr now }] }) ∧
    (∀ n : String, jsTrim n ≠ "" → none ∈ s.teams →
      (∀ t : Team, some t ∈ s.teams → t.name ≠ jsTrim n) →
      addTeam s (.str n) now = .error .typeErrorNullElement ∧
      step s (.addTeam (.str n) now) = s) ∧
    (∀ name : JsVal, addTeam s name now = .error .teamNameRequired ↔
      (name.truthy = false ∨ ∃ n, name = .str n ∧ jsTrim n = "")) ∧
    Error.message .teamNameRequired = "Team name is required" ∧
    Error.status .typeErrorNullElement = 500 := by
  refine ⟨?_, ?_, ?_, rfl, rfl⟩
  · intro n hn h0 hfree
    have ht := truthy_str_of_trim hn
    simp [addTeam, ht, hn, nameTaken_free h0 hfree]
  · intro n hn h0 hfree
    have ht := truthy_str_of_trim hn
    have key : addTeam s (.str n) now = .error .typeErrorNullElement := by
      simp [addTeam, ht, hn, nameTaken_null h0 hfree]
    exact ⟨key, by simp [step, key, persisted]⟩
  · intro name
    by_cases ht : name.truthy = true
    · cases name with
      | str n =>
        by_cases hn : jsTrim n = ""
        · simp [addTeam, ht, hn]
        · cases hnt : nameTaken s.teams (jsTrim n) with
          | error e =>
            have he := nameTaken_error hnt
            subst he
            simp [addTeam, ht, hn, hnt]
          | ok b =>
            cases b <;> simp [addTeam, ht, hn, hnt]
      | _ => simp [addTeam, ht]
    · have hf : name.truthy = false := by simpa using ht
      simp [addTeam, hf]

/-- C11 at the session `courtSession`: ` Delta ` is queued as `Delta` behind `A` and `B`,
and the blank name is refused. -/
theorem C11_addTeam_witness :
    addTeam courtSession (.str " Delta ") 7 =
      .ok { courtSession with
        teams := [some (tm "A" "1"), some (tm "B" "2"), some (tm "Delta" "7")] } ∧
    addTeam courtSession (.str "  ") 7 = .error .teamNameRequired :=
  ⟨(C11_addTeam courtSession 7).1 " Delta " (by decide) (by decide)
     (by
       intro t ht
       have h : t = tm "A" "1" ∨ t = tm "B" "2" := by simpa [courtSession] using ht
       rcases h with rfl | rfl <;> decide),
   ((C11_addTeam courtSession 7).2.2.1 (.str "  ")).mpr (Or.inr ⟨"  ", rfl, by decide⟩)⟩

/-- The decimal string of a clock value determines the value. -/
theorem repr_injective (a b : Nat) (h : Nat.repr a = Nat.repr b) : a = b := by
  have ha := parseIntChars_decimal a [] (by simp)
  have hb := parseIntChars_decimal b [] (by simp)
  have hd : Nat.toDigits 10 a = Nat.toDigits 10 b := by
    have := congrArg String.data h
    simpa [Nat.repr, List.asString] using this
  rw [hd, hb] at ha
  exact_mod_cast (Option.some.inj ha).symm

/-- C12, evaluated: two `addTeam` requests handled at the same `Date.now()` value give
both teams the same id, so the ids of the session are not pairwise distinct, and one
`removeTeam` with that id deletes both teams. -/
theorem C12_same_millisecond :
    run freshSession opsSameMillisecond =
      { mode := .null,
        teams := [tm "A" "1700000000000", tm "B" "1700000000000"],
        inPlay := [], score := some ⟨0, 0⟩ } ∧
    ¬ (run freshSession opsSameMillisecond).ids.Nodup ∧
    removeTeam (run freshSession opsSameMillisecond) "1700000000000" =
      .ok freshSession := by
  decide

/-! ## Recording a result: refill, classic mode, conservation -/

/-- From an empty in-play list the refill loop takes the first two queued teams. -/
theorem refill_nil (l : List (Option Team)) : refill [] l = (l.take 2, l.drop 2) := by
  match l with
  | [] => rfl
  | [a] => rfl
  | [a, b] => rfl
  | a :: b :: c :: r => rfl

/-- C13: in winner-stays-on mode a result with a truthy `bothLose` succeeds, whatever
`winner` and `loser` are and whatever the size of the in-play list; with `q` the prior
queue and `p` the prior in-play list, the in-play list becomes the first two elements of
`q ++ p` and the queue becomes `q ++ p` without them; mode and score are as before.  When
`q` is empty and `p` has two teams the session is unchanged. -/
theorem C13_both_lose (s : Session) (winner loser bothLose : JsVal)
    (hmode : s.mode = .str "winner-stays-on") (hbl : bothLose.truthy = true) :
    recordResult s winner loser bothLose =
      .ok { s with
        inPlay := (s.teams ++ s.inPlay).take 2
        teams := (s.teams ++ s.inPlay).drop 2 } ∧
    (s.teams = [] → s.inPlay.length = 2 → recordResult s winner loser bothLose = .ok s) := by
  have htm : (JsVal.str "winner-stays-on").truthy = true := by decide
  have key : recordResult s winner loser bothLose =
      .ok { s with
        inPlay := (s.teams ++ s.inPlay).take 2
        teams := (s.teams ++ s.inPlay).drop 2 } := by
    simp [recordResult, hmode, htm, hbl, refill_nil]
  refine ⟨key, ?_⟩
  intro hq hp
  rw [key]
  cases s with
  | mk mode teams inPlay score =>
    simp only at hq hp
    subst hq
    simp [List.take_of_length_le, List.drop_of_length_le, hp]

/-- C13 at queue `[C]`, in play `[A, B]`: afterwards `C`, `A` are in play and `B` is
queued. -/
theorem C13_both_lose_witness :
    recordResult rotationSession .undefined .undefined (.bool true) =
      .ok { rotationSession with
        inPlay := [tm "C" "3", tm "A" "1"]
        teams := [tm "B" "2"] } :=
  (C13_both_lose rotationSession .undefined .undefined (.bool true) rfl rfl).1

/-- Started with at most two teams in play, the refill loop ends with exactly two teams
in play or with an empty queue. -/
theorem refill_post (q : List (Option Team)) : ∀ ip : List (Option Team), ip.length ≤ 2 →
    (refill ip q).1.length = 2 ∨ (refill ip q).2 = [] := by
  induction q with
  | nil => intro ip _; exact Or.inr rfl
  | cons t rest ih =>
    intro ip hip
    by_cases h : ip.length < 2
    · simp only [refill, h, if_true]
      exact ih (ip ++ [t]) (by simp; omega)
    · simp only [refill, h, if_false]
      exact Or.inl (by omega)

/-- Inversion of a successful `recordResult` in winner-stays-on mode: the result is the
refill of an in-play list of at most one team. -/
theorem recordResult_wso_ok {s s' : Session} {w l b : JsVal}
    (hmode : s.mode = .str "winner-stays-on") (h : recordResult s w l b = .ok s') :
    ∃ ip q, ip.length ≤ 1 ∧
      s' = { s with teams := (refill ip q).2, inPlay := (refill ip q).1 } := by
  unfold recordResult at h
  rw [if_pos hmode] at h
  split at h
  · cases h
  · split at h
    · injection h with h
      exact ⟨[], s.teams ++ s.inPlay, by simp, h.symm⟩
    · split at h
      · cases hw : findTeam s.inPlay w with
        | error e => simp [hw] at h
        | ok rw =>
          cases hl : findTeam s.inPlay l with
          | error e => simp [hw, hl] at h
          | ok rl =>
            cases rw with
            | none => simp [hw, hl] at h
            | some wt =>
              cases rl with
              | none => simp [hw, hl] at h
              | some lt =>
                simp only [hw, hl] at h
                injection h with h
                exact ⟨[some wt], s.teams ++ [some lt], by simp, h.symm⟩
      · cases h

/-- C14: in winner-stays-on mode, whatever the prior sizes of queue and in-play list,
after a successful `recordResult` either exactly two teams are in play or the queue is
empty, and score and mode are as before.  The refill loop is the total function
`refill`, which recurses on the queue, so it always terminates. -/
theorem C14_refill_postcondition (s s' : Session) (winner loser bothLose : JsVal)
    (hmode : s.mode = .str "winner-stays-on")
    (h : recordResult s winner loser bothLose = .ok s') :
    (s'.inPlay.length = 2 ∨ s'.teams = []) ∧ s'.score = s.score ∧ s'.mode = s.mode := by
  obtain ⟨ip, q, hip, rfl⟩ := recordResult_wso_ok hmode h
  exact ⟨refill_post q ip (by omega), rfl, rfl⟩

/-- C14 at queue `[C]`, in play `[A, B]`, winner `A`, loser `B`: the call succeeds with
`A`, `C` in play, and the score `(2, 1)` is kept. -/
theorem C14_refill_postcondition_witness :
    recordResult rotationSession (.str "1") (.str "2") (.bool false) =
      .ok { rotationSession with inPlay := [tm "A" "1", tm "C" "3"], teams := [tm "B" "2"] } ∧
    (([some (tm "A" "1"), some (tm "C" "3")].length = 2 ∨ [some (tm "B" "2")] = []) ∧
      (some ⟨2, 1⟩ : Option Score) = rotationSession.score ∧
      JsVal.str "winner-stays-on" = rotationSession.mode) :=
  ⟨by decide,
   C14_refill_postcondition rotationSession
     { rotationSession with inPlay := [tm "A" "1", tm "C" "3"], teams := [tm "B" "2"] }
     (.str "1") (.str "2") (.bool false) rfl (by decide)⟩

/-- C15: in classic mode a result with a falsy `bothLose` (false, omitted, `null`), whatever
`winner` and `loser` are, is answered with `Invalid game result for classic mode`, and
the persisted session is the prior one. -/
theorem C15_classic_rejects (s : Session) (winner loser bothLose : JsVal)
    (hmode : s.mode = .str "classic") (hbl : bothLose.truthy = false) :
    recordResult s winner loser bothLose = .error .invalidGameResultClassic ∧
    step s (.recordResult winner loser bothLose) = s ∧
    Error.message .invalidGameResultClassic = "Invalid game result for classic mode" := by
  have htm : (JsVal.str "classic").truthy = true := by decide
  have hne : JsVal.str "classic" ≠ JsVal.str "winner-stays-on" := by decide
  have key : recordResult s winner loser bothLose = .error .invalidGameResultClassic := by
    simp [recordResult, hmode, htm, hne, hbl]
  exact ⟨key, by simp only [step, key, persisted], rfl⟩

/-- C15 at `courtSession` with the in-play id `3` as winner and `bothLose` omitted. -/
theorem C15_classic_rejects_witness :
    recordResult courtSession (.str "3") (.str "3") .undefined =
      .error .invalidGameResultClassic ∧
    step courtSession (.recordResult (.str "3") (.str "3") .undefined) = courtSession ∧
    Error.message .invalidGameResultClassic = "Invalid game result for classic mode" :=
  C15_classic_rejects courtSession (.str "3") (.str "3") .undefined rfl rfl

/-- C20, evaluated: with `A`, `B` in play and `C` queued, a result naming the in-play id
`1` as winner and as loser succeeds and leaves `A` queued and in play while `B` is gone,
so the teams after the call are not a permutation of the teams before; and in the
session with `B`, `C`, `D` in play reached by `opsRestart`, a win of `B` over `C`
succeeds and drops `D`.  Results with a truthy `bothLose` do permute the teams. -/
theorem C20_conservation_fails :
    recordResult
      { mode := .str "winner-stays-on", teams := [tm "C" "3"],
        inPlay := [tm "A" "1", tm "B" "2"], score := some ⟨0, 0⟩ }
      (.str "1") (.str "1") (.bool false) =
      .ok { mode := .str "winner-stays-on", teams := [tm "A" "1"],
            inPlay := [tm "A" "1", tm "C" "3"], score := some ⟨0, 0⟩ } ∧
    ¬ ([tm "A" "1"] ++ [tm "A" "1", tm "C" "3"]).Perm
        ([tm "C" "3"] ++ [tm "A" "1", tm "B" "2"]) ∧
    run freshSession (.configure (.str "winner-stays-on") :: opsRestart) =
      { mode := .str "winner-stays-on", teams := [],
        inPlay := [tm "B" "2", tm "C" "3", tm "D" "4"], score := some ⟨0, 0⟩ } ∧
    recordResult (run freshSession (.configure (.str "winner-stays-on") :: opsRestart))
      (.str "2") (.str "3") (.bool false) =
      .ok { mode := .str "winner-stays-on", teams := [],
            inPlay := [tm "B" "2", tm "C" "3"], score := some ⟨0, 0⟩ } ∧
    (∀ (s s' : Session) (w l b : JsVal), b.truthy = true →
      recordResult s w l b = .ok s' →
      (s'.teams ++ s'.inPlay).Perm (s.teams ++ s.inPlay)) := by
  refine ⟨by decide, by decide, by decide, by decide, ?_⟩
  intro s s' w l b hb h
  rcases recordResult_ok h with hp | ⟨hf, -⟩
  · exact hp
  · rw [hb] at hf
    cases hf

/-! ## Start of a game: the score -/

/-- C16 as stated fails on a session stored without a `score` object: `startGame`
succeeds and the result still has no score, because the reset runs only under
`if (data[area].score)`. -/
theorem C16_counterexample :
    startGame { mode := .str "classic", teams := [tm "A" "1", tm "B" "2"],
                inPlay := [], score := none } =
      .ok { mode := .str "classic", teams := [],
            inPlay := [tm "A" "1", tm "B" "2"], score := none } ∧
    (none : Option Score) ≠ some ⟨0, 0⟩ := by
  decide

/-- C16 amended: when `startGame` succeeds on a session that has a score object, the
resulting score is `(0, 0)` whatever it was before; a session stored without a score
object still has none. -/
theorem C16_startGame_score (s s' : Session) (h : startGame s = .ok s') :
    (∀ sc, s.score = some sc → s'.score = some ⟨0, 0⟩) ∧
    (s.score = none → s'.score = none) := by
  obtain ⟨-, -, rfl⟩ := startGame_ok h
  constructor
  · intro sc hsc
    simp [hsc]
  · intro hsc
    simp [hsc]

/-- C16 at queue `[A, B]`, score `(1, 2)`: the game starts and the score is `(0, 0)`. -/
theorem C16_startGame_score_witness :
    startGame { courtSession with inPlay := [] } =
      .ok { courtSession with
        teams := []
        inPlay := [tm "A" "1", tm "B" "2"]
        score := some ⟨0, 0⟩ } ∧
    (∀ sc, courtSession.score = some sc → (some ⟨0, 0⟩ : Option Score) = some ⟨0, 0⟩) ∧
    (courtSession.score = none → (some ⟨0, 0⟩ : Option Score) = none) :=
  ⟨by decide,
   C16_startGame_score { courtSession with inPlay := [] }
     { courtSession with
       teams := []
       inPlay := [tm "A" "1", tm "B" "2"]
       score := some ⟨0, 0⟩ }
     (by decide)⟩

/-! ## The store: configure, reorder, unknown areas -/

/-- After `data[area] = s` the area holds `s`. -/
theorem Store.own_set_self (data : Store) (area : String) (s : Session) :
    (data.set area s).own area = some s := by
  induction data with
  | nil => simp [Store.set, Store.own]
  | cons kv rest ih =>
    obtain ⟨k, v⟩ := kv
    by_cases h : k = area
    · simp [Store.set, Store.own, h]
    · simp [Store.set, Store.own, h, ih]

/-- After `data[area] = s` the expression `data[area]` is the session `s`. -/
theorem Store.get_set_self (data : Store) (area : String) (s : Session) :
    (data.set area s).get area = .session s := by
  simp [Store.get, Store.own_set_self]

/-- When `data[area]` is `undefined` the store has no session for the area. -/
theorem Store.own_of_get_undefined {data : Store} {area : String}
    (h : data.get area = .undefined) : data.own area = none := by
  unfold Store.get at h
  cases ho : data.own area with
  | none => rfl
  | some s => simp [ho] at h

/-- C17: on an existing session `configure` sets the mode to any supplied value and
leaves queue and in-play list as they are; an existing score is kept and a missing score
becomes `(0, 0)`; the handler stores and sends that session.  On an area for which
`data[area]` is `undefined` it stores and sends a new session with that mode, empty
queue, empty in-play list and score `(0, 0)`.  Evaluated on the empty store and the area
`constructor`, which has no session: `data[area]` is the inherited member, the handler
takes the update branch, and no session is created. -/
theorem C17_configure :
    (∀ (s : Session) (mode : JsVal),
      (configure s mode).mode = mode ∧
      (configure s mode).teams = s.teams ∧
      (configure s mode).inPlay = s.inPlay ∧
      (∀ sc, s.score = some sc → (configure s mode).score = some sc) ∧
      (s.score = none → (configure s mode).score = some ⟨0, 0⟩)) ∧
    (∀ (data : Store) (area : String) (s : Session) (mode : JsVal),
      data.get area = .session s →
      postQueue data area mode =
        (.session (configure s mode), data.set area (configure s mode))) ∧
    (∀ (data : Store) (area : String) (mode : JsVal), data.get area = .undefined →
      postQueue data area mode =
        (.session (newSession mode), data.set area (newSession mode)) ∧
      (data.set area (newSession mode)).get area = .session (newSession mode) ∧
      newSession mode = { mode := mode, teams := [], inPlay := [], score := some ⟨0, 0⟩ }) ∧
    (Store.own [] "constructor" = none ∧
      postQueue [] "constructor" (.str "classic") = (.nonSession, []) ∧
      (postQueue [] "constructor" (.str "classic")).2.own "constructor" = none) := by
  refine ⟨?_, ?_, ?_, by decide⟩
  · intro s mode
    refine ⟨rfl, rfl, rfl, ?_, ?_⟩
    · intro sc h
      simp [configure, h]
    · intro h
      simp [configure, h]
  · intro data area s mode h
    simp [postQueue, h]
  · intro data area mode h
    exact ⟨by simp [postQueue, h], Store.get_set_self _ _ _, rfl⟩

/-- C18: on an existing session `reorderQueue` answers `Invalid data format` and leaves
the store as it is when the supplied value is not a list; for every list it succeeds,
answers `{ success: true, teams }` with that list, and stores the session whose queue is
exactly that list and whose in-play list, mode and score are as before; so it fails
exactly when the value is not a list. -/
theorem C18_reorderQueue (data : Store) (area : String) (s : Session)
    (h : data.get area = .session s) :
    postReorder data area none = (.error .invalidDataFormat, data) ∧
    (∀ l : List (Option Team),
      postReorder data area (some l) = (.reordered l, data.set area ({ s with teams := l } : Session)) ∧
      (data.set area ({ s with teams := l } : Session)).get area = .session ({ s with teams := l } : Session)) ∧
    (∀ teams : Option (List (Option Team)),
      (∃ e, (postReorder data area teams).1 = .error e) ↔ teams = none) ∧
    Error.message .invalidDataFormat = "Invalid data format" := by
  refine ⟨by simp [postReorder, h, reorderQueue], ?_, ?_, rfl⟩
  · intro l
    exact ⟨by simp [postReorder, h, reorderQueue], Store.get_set_self _ _ _⟩
  · intro teams
    cases teams with
    | none => simp [postReorder, h, reorderQueue]
    | some l => simp [postReorder, h, reorderQueue]

/-- C18 at `courtStore`: a non-list is refused, and a list that repeats the in-play team
`C` and names an unknown team with an empty id is stored as the queue. -/
theorem C18_reorderQueue_witness :
    postReorder courtStore "court" none = (.error .invalidDataFormat, courtStore) ∧
    postReorder courtStore "court" (some [tm "C" "3", tm "C" "3", tm "Z" ""]) =
      (.reordered [tm "C" "3", tm "C" "3", tm "Z" ""],
        [("court", { courtSession with teams := [tm "C" "3", tm "C" "3", tm "Z" ""] })]) :=
  ⟨(C18_reorderQueue courtStore "court" courtSession (by decide)).1,
   ((C18_reorderQueue courtStore "court" courtSession (by decide)).2.1
     [tm "C" "3", tm "C" "3", tm "Z" ""]).1⟩

/-- C19: when `data[area]` is `undefined`, each of `addTeam` (with a name that does not
trim to empty), `reorderQueue`, `removeTeam`, `startGame`, `recordResult` and
`updateScore` answers 404 and leaves the store as it is, while `configure` and the
get-or-create read store a new session.  Evaluated on the empty store and the area
`constructor`, which has no session: `data[area]` is the inherited member, the guard
`!data[area]` does not fire, and none of the six handlers answers 404 (three throw, one
answers `No game mode set`, two answer 200); the store stays empty. -/
theorem C19_not_found :
    (∀ (data : Store) (area : String), data.get area = .undefined →
      (∀ (n : String) (now : Nat), jsTrim n ≠ "" →
        postTeams data area (.str n) now = (.error .areaNotFoundCreateFirst, data)) ∧
      (∀ teams, postReorder data area teams = (.error .sessionNotFound, data)) ∧
      (∀ teamId, deleteTeam data area teamId = (.error .areaNotFound, data)) ∧
      postStartGame data area = (.error .areaNotFound, data) ∧
      (∀ w l b, postGameResult data area w l b = (.error .areaNotFound, data)) ∧
      (∀ t1 t2, postScore data area t1 t2 = (.error .areaNotFound, data)) ∧
      (∀ mode, (postQueue data area mode).2.get area = .session (newSession mode)) ∧
      (getQueue data area).2.get area = .session freshSession) ∧
    (Error.status .areaNotFoundCreateFirst = 404 ∧ Error.status .sessionNotFound = 404 ∧
      Error.status .areaNotFound = 404) ∧
    (Store.own [] "constructor" = none ∧
      postTeams [] "constructor" (.str "A") 1 = (.error .typeErrorNoSession, []) ∧
      postReorder [] "constructor" (some []) = (.reordered [], []) ∧
      deleteTeam [] "constructor" "1" = (.error .typeErrorNoSession, []) ∧
      postStartGame [] "constructor" = (.error .typeErrorNoSession, []) ∧
      postGameResult [] "constructor" .undefined .undefined (.bool true) =
        (.error .noModeSet, []) ∧
      postScore [] "constructor" (.num 1 (by decide)) .undefined = (.nonSession, []) ∧
      Error.status .typeErrorNoSession = 500 ∧ Error.status .noModeSet = 400) := by
  refine ⟨?_, by decide, by decide⟩
  intro data area h
  refine ⟨?_, ?_, ?_, ?_, ?_, ?_, ?_, ?_⟩
  · intro n now hn
    have hn' : n ≠ "" := by
      rintro rfl
      exact hn (by decide)
    simp [postTeams, JsVal.truthy, hn, hn', h]
  · intro teams
    simp [postReorder, h]
  · intro teamId
    simp [deleteTeam, h]
  · simp [postStartGame, h]
  · intro w l b
    simp [postGameResult, h]
  · intro t1 t2
    simp [postScore, h]
  · intro mode
    simp [postQueue, h, Store.get_set_self]
  · simp [getQueue, h, Store.get_set_self]

/-! ## Atomicity of error answers -/

/-- A handler that ends with an error answer writes nothing. -/
theorem finish_error {data : Store} {area : String} {r : Except Error Session} {e : Error}
    (h : (finish data area r).1 = .error e) : (finish data area r).2 = data := by
  cases r with
  | error e' => rfl
  | ok s => simp [finish] at h

/-- C21: for every store, area and request (add team, reorder, remove team, start game,
game result, score, and also configure), when the answer is an error, also a 500 for a
thrown exception, the store after the call is the store before the call: each handler
reaches `writeData` only on its success path, after all its checks. -/
theorem C21_atomic_on_error (data : Store) (area : String) (op : Op) (e : Error)
    (h : (handle data area op).1 = .error e) : (handle data area op).2 = data := by
  cases op with
  | configure mode =>
    simp only [handle, postQueue] at h ⊢
    cases hg : data.get area <;> simp [hg] at h
  | addTeam name now =>
    simp only [handle, postTeams] at h ⊢
    split
    · rfl
    · split
      · split
        · rfl
        · cases hg : data.get area with
          | session s =>
            simp only [hg] at h ⊢
            rename_i n _ _
            have h' : (finish data area (addTeam s (JsVal.str n) now)).1 = .error e := by
              simpa [*] using h
            exact finish_error h'
          | inherited => rfl
          | undefined => rfl
      · rfl
  | removeTeam teamId =>
    simp only [handle, deleteTeam] at h ⊢
    cases hg : data.get area with
    | session s =>
      simp only [hg] at h
      exact finish_error h
    | inherited => rfl
    | undefined => rfl
  | reorderQueue teams =>
    simp only [handle, postReorder] at h ⊢
    cases hg : data.get area with
    | session s =>
      cases teams with
      | none => rfl
      | some l => simp [hg, reorderQueue] at h
    | inherited =>
      cases teams with
      | none => rfl
      | some l => rfl
    | undefined => rfl
  | startGame =>
    simp only [handle, postStartGame] at h ⊢
    cases hg : data.get area with
    | session s =>
      simp only [hg] at h
      exact finish_error h
    | inherited => rfl
    | undefined => rfl
  | recordResult w l b =>
    simp only [handle, postGameResult] at h ⊢
    cases hg : data.get area with
    | session s =>
      simp only [hg] at h
      exact finish_error h
    | inherited => rfl
    | undefined => rfl
  | updateScore t1 t2 =>
    simp only [handle, postScore] at h ⊢
    cases hg : data.get area with
    | session s => simp [hg, finish] at h
    | inherited => rfl
    | undefined => rfl

/-- C21 at `courtStore`: a winner/loser result in classic mode is refused, and the store
is as before. -/
theorem C21_atomic_on_error_witness :
    (handle courtStore "court" (.recordResult (.str "3") (.str "3") .undefined)).1 =
      .error .invalidGameResultClassic ∧
    (handle courtStore "court" (.recordResult (.str "3") (.str "3") .undefined)).2 =
      courtStore :=
  ⟨by decide,
   C21_atomic_on_error courtStore "court" (.recordResult (.str "3") (.str "3") .undefined)
     .invalidGameResultClassic (by decide)⟩

/-! ## The client: drag and drop -/

/-- The list `handleOnDragEnd` builds for valid indices, on the teams themselves. -/
theorem handleOnDragEnd_valid (teams : List Team) (source destination : Nat)
    (hs : source < teams.length) (hne : source ≠ destination) :
    handleOnDragEnd teams source (some destination) =
      some (((teams.eraseIdx source).take destination ++ [teams[source]] ++
        (teams.eraseIdx source).drop destination).map some) := by
  have hcut : (List.drop source (List.map some teams)).take 1 = [some (teams[source])] := by
    rw [← List.map_drop, ← List.map_take, List.take_one_drop_eq_of_lt_length hs]
    simp
  simp only [handleOnDragEnd, hne, if_false, splice, hcut, List.append_nil, Nat.add_zero,
    List.head?_cons, Option.join, List.eraseIdx_eq_take_drop_succ, List.map_append,
    List.map_take, List.map_drop, List.map_cons, List.map_nil]
  rfl

/-- C22: for a local queue `teams` and valid indices `source ≠ destination`,
`handleOnDragEnd` sends a list `newTeams` of teams (no `undefined` element) that is a
permutation of `teams` of the same length, has `teams[source]` at index `destination`,
and, with that element removed, is `teams` with the element at `source` removed, so all
other teams keep their relative order.  With `source = destination`, or without a
destination, nothing is sent. -/
theorem C22_drag_reorder (teams : List Team) (source destination : Nat)
    (hs : source < teams.length) (hd : destination < teams.length)
    (hne : source ≠ destination) :
    ∃ newTeams : List Team,
      handleOnDragEnd teams source (some destination) = some (newTeams.map some) ∧
      newTeams.Perm teams ∧
      newTeams.length = teams.length ∧
      newTeams[destination]? = some (teams[source]) ∧
      newTeams.eraseIdx destination = teams.eraseIdx source ∧
      (∀ i, handleOnDragEnd teams i (some i) = none) ∧
      (∀ i, handleOnDragEnd teams i none = none) := by
  have hlen : (teams.eraseIdx source).length = teams.length - 1 :=
    List.length_eraseIdx_of_lt hs
  have htake : ((teams.eraseIdx source).take destination).length = destination := by
    rw [List.length_take, hlen]
    omega
  refine ⟨(teams.eraseIdx source).take destination ++ [teams[source]] ++
    (teams.eraseIdx source).drop destination, handleOnDragEnd_valid teams source destination hs hne,
    ?_, ?_, ?_, ?_, fun i => by simp [handleOnDragEnd], fun i => by simp [handleOnDragEnd]⟩
  · have h1 : ((teams.eraseIdx source).take destination ++ [teams[source]] ++
        (teams.eraseIdx source).drop destination).Perm
        (teams[source] :: teams.eraseIdx source) := by
      rw [List.append_assoc, List.singleton_append]
      refine List.perm_middle.trans ?_
      rw [List.take_append_drop]
    refine h1.trans ?_
    rw [List.eraseIdx_eq_take_drop_succ]
    refine List.perm_middle.symm.trans ?_
    rw [← List.drop_eq_getElem_cons hs, List.take_append_drop]
  · simp only [List.length_append, List.length_singleton, htake, List.length_drop, hlen]
    omega
  · rw [List.append_assoc, List.getElem?_append_right (by omega), htake]
    simp
  · rw [List.append_assoc, List.singleton_append,
      List.eraseIdx_append_of_length_le (by omega), htake]
    simp

/-- C22 at `[A, B, C, D]`, dragging index 0 to index 3: the list sent is `[B, C, D, A]`. -/
theorem C22_drag_reorder_witness :
    handleOnDragEnd [tm "A" "1", tm "B" "2", tm "C" "3", tm "D" "4"] 0 (some 3) =
      some ([tm "B" "2", tm "C" "3", tm "D" "4", tm "A" "1"].map some) ∧
    ∃ newTeams : List Team,
      handleOnDragEnd [tm "A" "1", tm "B" "2", tm "C" "3", tm "D" "4"] 0 (some 3) =
        some (newTeams.map some) ∧
      newTeams.Perm [tm "A" "1", tm "B" "2", tm "C" "3", tm "D" "4"] ∧
      newTeams.length = [tm "A" "1", tm "B" "2", tm "C" "3", tm "D" "4"].length ∧
      newTeams[3]? = some (tm "A" "1") ∧
      newTeams.eraseIdx 3 = [tm "A" "1", tm "B" "2", tm "C" "3", tm "D" "4"].eraseIdx 0 ∧
      (∀ i, handleOnDragEnd [tm "A" "1", tm "B" "2", tm "C" "3", tm "D" "4"] i (some i) =
        none) ∧
      (∀ i, handleOnDragEnd [tm "A" "1", tm "B" "2", tm "C" "3", tm "D" "4"] i none = none) :=
  ⟨by decide,
   C22_drag_reorder [tm "A" "1", tm "B" "2", tm "C" "3", tm "D" "4"] 0 3
     (by decide) (by decide) (by decide)⟩

end PickupTracker
